import Mathlib

/-!
Shallow embedding of `ComponentBase.ts` (ReSub): the automatic
store-subscription tracking and mark-and-sweep reconciliation algorithm of
`ComponentBase`, together with the lifecycle glue
(`getDerivedStateFromProps`, `componentDidMount`, `componentWillUnmount`,
`_handleUpdate`, `_onAutoSubscriptionChangedUnbound`).

The repository ships only `ComponentBase.ts`; the collaborators it imports
(`StoreBase`, `Options`, `utils`) are modelled from the specification at
their interface boundary, and each such definition is marked
`Modelled from the spec:` in its doc comment.
-/

namespace ReSub

/-- A store key as seen by the subscription system: either the reserved
sentinel `Key_All` ("any key on this store") or a specific string key. -/
inductive Key where
  | all : Key
  | specific : String → Key
deriving DecidableEq, Repr

/-- One auto-subscription record (the `AutoSubscription` interface consumed by
`ComponentBase.ts`): the owning store (represented by its `storeId`), the key,
and the transient `used` flag. The `id` field stands for JavaScript object
identity (each `_handleAutoSubscribe` creation allocates a fresh object). -/
structure AutoSubscription where
  id : Nat
  storeId : Nat
  key : Key
  used : Bool
deriving DecidableEq, Repr

/-- Outcome of one invocation of the owner's `_buildState`: either it returns
normally (`none` standing for `undefined`, `some keys` for an object with the
given property names), or it throws an exception. -/
inductive BuildOutcome where
  | ok : Option (List String) → BuildOutcome
  | fault : BuildOutcome
deriving DecidableEq, Repr

/-- Behaviour of the owner's `_buildState` on one call: the ordered
(storeId, key) reads it performs through the auto-subscribe interception (up
to the point where it throws, when `outcome = fault`), and its outcome. -/
structure Build where
  reads : List (Nat × Key)
  outcome : BuildOutcome
deriving DecidableEq, Repr

/-- State of one `ComponentBase` owner together with the observable effects on
its stores. `handledAutoSubscriptions` and `isMounted` are the instance
fields of `ComponentBase.ts`; `storeIndex` models the store-side subscription
indexes, flattened into entries `(subscription id, storeId, key)`;
`trackLog` and `removedLog` record the arguments of every
`StoreBase.trackAutoSubscription` / `removeAutoSubscription` call; `nextId`
allocates object identities; `buildCount`, `initBuildCount` and
`updateEvalCount` are ghost counters of how many times
`_buildStateWithAutoSubscriptions`, `_buildInitialState` and `_handleUpdate`
have run, used only to state temporal properties. -/
structure OwnerState where
  handledAutoSubscriptions : List AutoSubscription
  isMounted : Bool
  nextId : Nat
  storeIndex : List (Nat × Nat × Key)
  trackLog : List AutoSubscription
  removedLog : List AutoSubscription
  buildCount : Nat
  initBuildCount : Nat
  updateEvalCount : Nat
deriving DecidableEq, Repr

/-- Modelled from the spec: `StoreBase.trackAutoSubscription` (store contract,
spec section 6) — registers a subscription in the store-side index. -/
def trackAutoSubscription (st : OwnerState) (subscription : AutoSubscription) : OwnerState :=
  { st with
    storeIndex := st.storeIndex ++ [(subscription.id, subscription.storeId, subscription.key)],
    trackLog := st.trackLog ++ [subscription] }

/-- Modelled from the spec: `StoreBase.removeAutoSubscription` (store
contract, spec section 6) — deregisters a subscription from the store-side
index. -/
def removeAutoSubscription (st : OwnerState) (subscription : AutoSubscription) : OwnerState :=
  { st with
    storeIndex := st.storeIndex.filter (fun e => decide (e.1 ≠ subscription.id)),
    removedLog := st.removedLog ++ [subscription] }

/-- The matching predicate of `_findMatchingAutoSubscription`
(`ComponentBase.ts:159-162`): same `storeId`, and either the same key or the
subscription already holds `Key_All`. -/
def matchPred (storeId : Nat) (key : Key) (subscription : AutoSubscription) : Bool :=
  decide (subscription.storeId = storeId ∧
    (subscription.key = key ∨ subscription.key = Key.all))

/-- Search the already handled auto-subscriptions
(`_findMatchingAutoSubscription`, `ComponentBase.ts:158-163`); `find` from
`utils` is modelled from the spec as first-match search (section 4.2 step 4). -/
def _findMatchingAutoSubscription (st : OwnerState) (storeId : Nat) (key : Key) :
    Option AutoSubscription :=
  st.handledAutoSubscriptions.find? (matchPred storeId key)

/-- Set `used := true` on the first subscription matching `p`, leaving the rest
untouched: the effect of `autoSubscription.used = true` on the object returned
by the first-match search in `_handleAutoSubscribe`. -/
def markFirst (p : AutoSubscription → Bool) : List AutoSubscription → List AutoSubscription
  | [] => []
  | s :: rest => if p s then { s with used := true } :: rest else s :: markFirst p rest

/-- One intercepted (store, key) read (`_handleAutoSubscribe`,
`ComponentBase.ts:136-155`): mark an existing matching subscription as used,
or else create a fresh subscription, append it to the registry and track it
with the store. -/
def _handleAutoSubscribe (st : OwnerState) (storeId : Nat) (key : Key) : OwnerState :=
  match _findMatchingAutoSubscription st storeId key with
  | some _ =>
      { st with handledAutoSubscriptions :=
          markFirst (matchPred storeId key) st.handledAutoSubscriptions }
  | none =>
      let subscription : AutoSubscription :=
        { id := st.nextId, storeId := storeId, key := key, used := true }
      trackAutoSubscription
        { st with
          handledAutoSubscriptions := st.handledAutoSubscriptions ++ [subscription],
          nextId := st.nextId + 1 }
        subscription

/-- Reset every subscription's `used` flag (`ComponentBase.ts:175-177`). -/
def resetUsed (l : List AutoSubscription) : List AutoSubscription :=
  l.map fun s => { s with used := false }

/-- Fold the intercepted reads of one build through `_handleAutoSubscribe`. -/
def runReads (st : OwnerState) (reads : List (Nat × Key)) : OwnerState :=
  reads.foldl (fun acc r => _handleAutoSubscribe acc r.1 r.2) st

/-- Sweep predicate (`_shouldRemoveAndCleanupAutoSubscription`,
`ComponentBase.ts:116-118`). -/
def _shouldRemoveAndCleanupAutoSubscription (subscription : AutoSubscription) : Bool :=
  !subscription.used

/-- Sweep step (`ComponentBase.ts:183-190`): `remove` from `utils` is modelled
from the spec (section 4.2 step 6) as deleting every matching element; each
removed subscription is deregistered from its store. -/
def sweep (st : OwnerState) : OwnerState :=
  let removed := st.handledAutoSubscriptions.filter _shouldRemoveAndCleanupAutoSubscription
  let kept := st.handledAutoSubscriptions.filter
    fun s => !_shouldRemoveAndCleanupAutoSubscription s
  let st' := removed.foldl removeAutoSubscription st
  { st' with handledAutoSubscriptions := kept }

/-- One reconciliation pass (`_buildStateWithAutoSubscriptions`,
`ComponentBase.ts:173-193`): reset all marks, run the build function with its
store reads intercepted, then sweep the unused subscriptions — unless the
build function throws, in which case the exception propagates before the
sweep runs, leaving the registry as the mark phase left it. -/
def _buildStateWithAutoSubscriptions (st : OwnerState) (build : Build) :
    OwnerState × Except Unit (Option (List String)) :=
  let st1 := { st with
    handledAutoSubscriptions := resetUsed st.handledAutoSubscriptions,
    buildCount := st.buildCount + 1 }
  let st2 := runReads st1 build.reads
  match build.outcome with
  | BuildOutcome.fault => (st2, Except.error ())
  | BuildOutcome.ok draft => (sweep st2, Except.ok draft)

/-- Default `_buildState` (`ComponentBase.ts:210-212`): returns `undefined` and
reads nothing. -/
def _buildState_default : Build :=
  { reads := [], outcome := BuildOutcome.ok none }

/-- Truthiness test of `newState && Object.keys(newState).length`
(`ComponentBase.ts:87` and `ComponentBase.ts:127`). -/
def draftNonEmpty : Option (List String) → Bool
  | some ks => decide (ks ≠ [])
  | none => false

/-- Prop-change evaluation (`_handleUpdate`, `ComponentBase.ts:84-92`).
`propsEqual` is the result of the configured update-comparison policy
(`Options.shouldComponentUpdateComparator`, modelled from the spec as a
pluggable boolean-valued comparison at its interface); the second component is
the React return value of the method, `none` standing for `null`. -/
def _handleUpdate (st : OwnerState) (propsEqual : Bool) (build : Build) :
    OwnerState × Except Unit (Option (List String)) :=
  let st0 := { st with updateEvalCount := st.updateEvalCount + 1 }
  if !propsEqual then
    match _buildStateWithAutoSubscriptions st0 build with
    | (st', Except.ok newState) =>
        if draftNonEmpty newState then (st', Except.ok newState) else (st', Except.ok none)
    | (st', Except.error e) => (st', Except.error e)
  else (st0, Except.ok none)

/-- Initial build (`_buildInitialState`, `ComponentBase.ts:216-221`): the draft
state is coalesced with `|| {}`; an exception from the build propagates. -/
def _buildInitialState (st : OwnerState) (build : Build) :
    OwnerState × Except Unit (List String) :=
  let st0 := { st with initBuildCount := st.initBuildCount + 1 }
  match _buildStateWithAutoSubscriptions st0 build with
  | (st', Except.ok draft) => (st', Except.ok (draft.getD []))
  | (st', Except.error e) => (st', Except.error e)

/-- Store-change callback (`_onAutoSubscriptionChangedUnbound`,
`ComponentBase.ts:122-130`): a no-op when the owner is not mounted; otherwise
rebuild and, for a non-empty draft, call `setState`. The second component
records the `setState` argument (`none` = `setState` not called). -/
def _onAutoSubscriptionChangedUnbound (st : OwnerState) (build : Build) :
    OwnerState × Except Unit (Option (List String)) :=
  if !st.isMounted then (st, Except.ok none)
  else
    match _buildStateWithAutoSubscriptions st build with
    | (st', Except.ok newState) =>
        if draftNonEmpty newState then (st', Except.ok newState) else (st', Except.ok none)
    | (st', Except.error e) => (st', Except.error e)

/-- Teardown (`componentWillUnmount`, `ComponentBase.ts:95-104`): set
`used := false` on every subscription, deregister each from its store, clear
the registry and the mounted flag. -/
def componentWillUnmount (st : OwnerState) : OwnerState :=
  let cleared := resetUsed st.handledAutoSubscriptions
  let st' := cleared.foldl removeAutoSubscription
    { st with handledAutoSubscriptions := cleared }
  { st' with handledAutoSubscriptions := [], isMounted := false }

/-- Mount commit (`componentDidMount`, `ComponentBase.ts:224-227`);
`_componentDidRender` is a virtual no-op hook. -/
def componentDidMount (st : OwnerState) : OwnerState :=
  { st with isMounted := true }

/-- Lifecycle dispatch (`getDerivedStateFromProps`, `ComponentBase.ts:70-82`):
initial build while not yet mounted, prop-change evaluation once mounted. -/
def getDerivedStateFromProps (st : OwnerState) (propsEqual : Bool) (build : Build) :
    OwnerState × Except Unit (Option (List String)) :=
  if !st.isMounted then
    match _buildInitialState st build with
    | (st', Except.ok s) => (st', Except.ok (some s))
    | (st', Except.error e) => (st', Except.error e)
  else
    _handleUpdate st propsEqual build

/-- Lifecycle events delivered by the host UI framework to one owner. -/
inductive LifecycleEvent where
  | getDerived : Bool → Build → LifecycleEvent
  | didMount : LifecycleEvent
  | willUnmount : LifecycleEvent
deriving DecidableEq, Repr

/-- Step the owner through one host lifecycle event. -/
def stepLifecycle (st : OwnerState) : LifecycleEvent → OwnerState
  | LifecycleEvent.getDerived pe b => (getDerivedStateFromProps st pe b).1
  | LifecycleEvent.didMount => componentDidMount st
  | LifecycleEvent.willUnmount => componentWillUnmount st

/-- Run a sequence of host lifecycle events. -/
def runLifecycle (st : OwnerState) (es : List LifecycleEvent) : OwnerState :=
  es.foldl stepLifecycle st

/-- Test for a prop-change evaluation event. -/
def isUpdateEvent : LifecycleEvent → Bool
  | LifecycleEvent.getDerived _ _ => true
  | _ => false

/-- Modelled from the spec: the host UI framework's lifecycle contract (spec
sections 4.4 and 6) — one `getDerivedStateFromProps` call before the mount
commit, then prop-change evaluations, then at most one teardown, after which
no further lifecycle events are delivered to this owner. -/
def ValidTrace (es : List LifecycleEvent) : Prop :=
  ∃ pe b mid tail,
    es = LifecycleEvent.getDerived pe b :: LifecycleEvent.didMount :: (mid ++ tail) ∧
    (∀ e ∈ mid, isUpdateEvent e = true) ∧
    (tail = [] ∨ tail = [LifecycleEvent.willUnmount])

/-- A freshly constructed owner (`ComponentBase.ts:30-67`): empty registry,
not mounted. -/
def fresh : OwnerState :=
  { handledAutoSubscriptions := [], isMounted := false, nextId := 0,
    storeIndex := [], trackLog := [], removedLog := [],
    buildCount := 0, initBuildCount := 0, updateEvalCount := 0 }

/-- Object identity plus the immutable (storeId, key) data of a subscription:
everything except the transient `used` flag. -/
def shape (s : AutoSubscription) : Nat × Nat × Key :=
  (s.id, s.storeId, s.key)

/-- The (storeId, key) dependency pairs held by a registry. -/
def pairsOf (l : List AutoSubscription) : List (Nat × Key) :=
  l.map fun s => (s.storeId, s.key)

/-- A registry is coalesced when its (storeId, key) pairs are pairwise
distinct. -/
def distinctPairs (l : List AutoSubscription) : Prop :=
  (pairsOf l).Nodup

/-- Well-formedness of an owner state: subscription identities are pairwise
distinct and below the allocation counter. Holds for `fresh` and is preserved
by every operation. -/
def WellFormed (st : OwnerState) : Prop :=
  (st.handledAutoSubscriptions.map AutoSubscription.id).Nodup ∧
  ∀ s ∈ st.handledAutoSubscriptions, s.id < st.nextId

instance (l : List AutoSubscription) : Decidable (distinctPairs l) :=
  inferInstanceAs (Decidable (pairsOf l).Nodup)

instance (st : OwnerState) : Decidable (WellFormed st) :=
  inferInstanceAs (Decidable (_ ∧ _))

/-- The freshly created subscription of the no-match branch of
`_handleAutoSubscribe`. -/
def newSub (st : OwnerState) (storeId : Nat) (key : Key) : AutoSubscription :=
  { id := st.nextId, storeId := storeId, key := key, used := true }

theorem matchPred_eq_true {storeId : Nat} {key : Key} {s : AutoSubscription} :
    matchPred storeId key s = true ↔
      s.storeId = storeId ∧ (s.key = key ∨ s.key = Key.all) := by
  simp [matchPred]

theorem shape_eq_iff {a b : AutoSubscription} :
    shape a = shape b ↔ a.id = b.id ∧ a.storeId = b.storeId ∧ a.key = b.key := by
  simp [shape]

theorem matchPred_congr {storeId : Nat} {key : Key} {a b : AutoSubscription}
    (h : shape a = shape b) :
    matchPred storeId key a = matchPred storeId key b := by
  rcases shape_eq_iff.mp h with ⟨_, h2, h3⟩
  simp [matchPred, h2, h3]

theorem markFirst_of_find?_none {p : AutoSubscription → Bool} :
    ∀ {l : List AutoSubscription}, l.find? p = none → markFirst p l = l := by
  intro l
  induction l with
  | nil => intro _; rfl
  | cons s rest ih =>
    intro h
    by_cases hp : p s
    · rw [List.find?_cons_of_pos _ hp] at h; exact absurd h (by simp)
    · rw [List.find?_cons_of_neg _ hp] at h
      simp [markFirst, hp, ih h]

theorem markFirst_decomp {p : AutoSubscription → Bool} :
    ∀ {l : List AutoSubscription} {x : AutoSubscription}, l.find? p = some x →
      ∃ l₁ l₂, l = l₁ ++ x :: l₂ ∧ (∀ y ∈ l₁, p y = false) ∧ p x = true ∧
        markFirst p l = l₁ ++ { x with used := true } :: l₂ := by
  intro l
  induction l with
  | nil => intro x h; simp at h
  | cons s rest ih =>
    intro x h
    by_cases hp : p s
    · rw [List.find?_cons_of_pos _ hp] at h
      obtain rfl : s = x := by injection h
      exact ⟨[], rest, by simp, by simp, hp, by simp [markFirst, hp]⟩
    · rw [List.find?_cons_of_neg _ hp] at h
      obtain ⟨l₁, l₂, hl, hl₁, hx, hm⟩ := ih h
      refine ⟨s :: l₁, l₂, by simp [hl], ?_, hx, by simp [markFirst, hp, hm]⟩
      intro y hy
      rcases List.mem_cons.mp hy with rfl | hy
      · simpa using hp
      · exact hl₁ y hy

theorem shapes_markFirst (p : AutoSubscription → Bool) (l : List AutoSubscription) :
    (markFirst p l).map shape = l.map shape := by
  induction l with
  | nil => rfl
  | cons s rest ih =>
    by_cases hp : p s <;> simp [markFirst, hp, ih, shape]

theorem idsOf_markFirst (p : AutoSubscription → Bool) (l : List AutoSubscription) :
    (markFirst p l).map AutoSubscription.id = l.map AutoSubscription.id := by
  induction l with
  | nil => rfl
  | cons s rest ih =>
    by_cases hp : p s <;> simp [markFirst, hp, ih]

theorem pairsOf_markFirst (p : AutoSubscription → Bool) (l : List AutoSubscription) :
    pairsOf (markFirst p l) = pairsOf l := by
  induction l with
  | nil => rfl
  | cons s rest ih =>
    by_cases hp : p s
    · simp [markFirst, hp, pairsOf]
    · simpa [markFirst, hp, pairsOf] using ih

theorem mem_markFirst_self {p : AutoSubscription → Bool} {x : AutoSubscription} :
    ∀ {l : List AutoSubscription}, x ∈ l → p x = false → x ∈ markFirst p l := by
  intro l
  induction l with
  | nil => intro h _; simp at h
  | cons s rest ih =>
    intro h hx
    by_cases hp : p s
    · rcases List.mem_cons.mp h with rfl | h
      · rw [hx] at hp; exact absurd hp (by simp)
      · simp [markFirst, hp, h]
    · rcases List.mem_cons.mp h with rfl | h
      · simp [markFirst, hp]
      · simp [markFirst, hp, ih h hx]

theorem mem_markFirst_of_mem {p : AutoSubscription → Bool} {x : AutoSubscription} :
    ∀ {l : List AutoSubscription}, x ∈ l →
      x ∈ markFirst p l ∨ { x with used := true } ∈ markFirst p l := by
  intro l
  induction l with
  | nil => intro h; simp at h
  | cons s rest ih =>
    intro h
    by_cases hp : p s
    · rcases List.mem_cons.mp h with rfl | h
      · right; simp [markFirst, hp]
      · left; simp [markFirst, hp, h]
    · rcases List.mem_cons.mp h with rfl | h
      · left; simp [markFirst, hp]
      · rcases ih h with h' | h'
        · left; simp [markFirst, hp, h']
        · right; simp [markFirst, hp, h']

theorem mem_of_mem_markFirst {p : AutoSubscription → Bool} {x : AutoSubscription} :
    ∀ {l : List AutoSubscription}, x ∈ markFirst p l →
      x ∈ l ∨ ∃ y ∈ l, p y = true ∧ x = { y with used := true } := by
  intro l
  induction l with
  | nil => intro h; simp [markFirst] at h
  | cons s rest ih =>
    intro h
    by_cases hp : p s
    · simp only [markFirst, hp, if_true] at h
      rcases List.mem_cons.mp h with rfl | h
      · exact Or.inr ⟨s, by simp, hp, rfl⟩
      · exact Or.inl (List.mem_cons_of_mem _ h)
    · simp only [markFirst, hp, if_false] at h
      rcases List.mem_cons.mp h with rfl | h
      · exact Or.inl (by simp)
      · rcases ih h with h' | ⟨y, hy, hpy, rfl⟩
        · exact Or.inl (List.mem_cons_of_mem _ h')
        · exact Or.inr ⟨y, List.mem_cons_of_mem _ hy, hpy, rfl⟩

theorem find?_append_some {α : Type} {l₁ l₂ : List α} {p : α → Bool} {x : α}
    (h : l₁.find? p = some x) : (l₁ ++ l₂).find? p = some x := by
  induction l₁ with
  | nil => simp at h
  | cons a t ih =>
    rw [List.cons_append]
    by_cases hp : p a
    · rw [List.find?_cons_of_pos _ hp] at h ⊢; exact h
    · rw [List.find?_cons_of_neg _ hp] at h ⊢; exact ih h

theorem find?_append_none {α : Type} {l₁ l₂ : List α} {p : α → Bool}
    (h : l₁.find? p = none) : (l₁ ++ l₂).find? p = l₂.find? p := by
  induction l₁ with
  | nil => simp
  | cons a t ih =>
    rw [List.cons_append]
    by_cases hp : p a
    · rw [List.find?_cons_of_pos _ hp] at h; exact absurd h (by simp)
    · rw [List.find?_cons_of_neg _ hp] at h ⊢; exact ih h

theorem find?_filter {α : Type} {l : List α} {p q : α → Bool} {x : α}
    (h : l.find? p = some x) (hq : q x = true) : (l.filter q).find? p = some x := by
  induction l with
  | nil => simp at h
  | cons a t ih =>
    by_cases hp : p a
    · rw [List.find?_cons_of_pos _ hp] at h
      obtain rfl : a = x := by injection h
      rw [List.filter_cons, if_pos hq]
      exact List.find?_cons_of_pos _ hp
    · rw [List.find?_cons_of_neg _ hp] at h
      rw [List.filter_cons]
      by_cases hqa : q a
      · rw [if_pos hqa, List.find?_cons_of_neg _ hp]; exact ih h
      · rw [if_neg hqa]; exact ih h

theorem find?_map_shape_congr {p : AutoSubscription → Bool}
    (hp : ∀ a b, shape a = shape b → p a = p b) :
    ∀ {l₁ l₂ : List AutoSubscription}, l₁.map shape = l₂.map shape →
      (l₁.find? p).map shape = (l₂.find? p).map shape := by
  intro l₁
  induction l₁ with
  | nil =>
    intro l₂ h
    cases l₂ with
    | nil => rfl
    | cons b t => simp at h
  | cons a t ih =>
    intro l₂ h
    cases l₂ with
    | nil => simp at h
    | cons b t₂ =>
      simp only [List.map_cons, List.cons.injEq] at h
      obtain ⟨hab, ht⟩ := h
      have hpab : p a = p b := hp a b hab
      by_cases hpa : p a
      · rw [List.find?_cons_of_pos _ hpa, List.find?_cons_of_pos _ (hpab ▸ hpa)]
        simp [hab]
      · rw [List.find?_cons_of_neg _ hpa, List.find?_cons_of_neg _ (by rw [← hpab]; exact hpa)]
        exact ih ht

theorem shapes_resetUsed (l : List AutoSubscription) :
    (resetUsed l).map shape = l.map shape := by
  simp [resetUsed, shape, Function.comp]

theorem idsOf_resetUsed (l : List AutoSubscription) :
    (resetUsed l).map AutoSubscription.id = l.map AutoSubscription.id := by
  simp [resetUsed, Function.comp]

theorem pairsOf_resetUsed (l : List AutoSubscription) :
    pairsOf (resetUsed l) = pairsOf l := by
  simp [resetUsed, pairsOf, Function.comp]

theorem mem_resetUsed_of_mem {l : List AutoSubscription} {s : AutoSubscription} (h : s ∈ l) :
    { s with used := false } ∈ resetUsed l :=
  List.mem_map_of_mem _ h

theorem mem_of_mem_resetUsed {l : List AutoSubscription} {x : AutoSubscription}
    (h : x ∈ resetUsed l) : ∃ s ∈ l, x = { s with used := false } := by
  rcases List.mem_map.mp h with ⟨s, hs, rfl⟩
  exact ⟨s, hs, rfl⟩

theorem handle_of_some {st : OwnerState} {storeId : Nat} {key : Key} {x : AutoSubscription}
    (h : _findMatchingAutoSubscription st storeId key = some x) :
    _handleAutoSubscribe st storeId key =
      { st with handledAutoSubscriptions :=
          markFirst (matchPred storeId key) st.handledAutoSubscriptions } := by
  unfold _handleAutoSubscribe
  rw [h]

theorem handle_of_none {st : OwnerState} {storeId : Nat} {key : Key}
    (h : _findMatchingAutoSubscription st storeId key = none) :
    _handleAutoSubscribe st storeId key =
      { st with
        handledAutoSubscriptions := st.handledAutoSubscriptions ++ [newSub st storeId key],
        nextId := st.nextId + 1,
        storeIndex := st.storeIndex ++ [(st.nextId, storeId, key)],
        trackLog := st.trackLog ++ [newSub st storeId key] } := by
  unfold _handleAutoSubscribe
  rw [h]
  rfl

theorem handle_preserves (st : OwnerState) (storeId : Nat) (key : Key) :
    (_handleAutoSubscribe st storeId key).isMounted = st.isMounted ∧
    (_handleAutoSubscribe st storeId key).buildCount = st.buildCount ∧
    (_handleAutoSubscribe st storeId key).initBuildCount = st.initBuildCount ∧
    (_handleAutoSubscribe st storeId key).updateEvalCount = st.updateEvalCount ∧
    (_handleAutoSubscribe st storeId key).removedLog = st.removedLog := by
  cases h : _findMatchingAutoSubscription st storeId key with
  | some x => rw [handle_of_some h]; exact ⟨rfl, rfl, rfl, rfl, rfl⟩
  | none => rw [handle_of_none h]; exact ⟨rfl, rfl, rfl, rfl, rfl⟩

theorem runReads_cons (st : OwnerState) (r : Nat × Key) (rs : List (Nat × Key)) :
    runReads st (r :: rs) = runReads (_handleAutoSubscribe st r.1 r.2) rs := rfl

theorem runReads_preserves (reads : List (Nat × Key)) :
    ∀ st : OwnerState,
      (runReads st reads).isMounted = st.isMounted ∧
      (runReads st reads).buildCount = st.buildCount ∧
      (runReads st reads).initBuildCount = st.initBuildCount ∧
      (runReads st reads).updateEvalCount = st.updateEvalCount ∧
      (runReads st reads).removedLog = st.removedLog := by
  induction reads with
  | nil => intro st; exact ⟨rfl, rfl, rfl, rfl, rfl⟩
  | cons r rs ih =>
    intro st
    rw [runReads_cons]
    obtain ⟨a1, a2, a3, a4, a5⟩ := handle_preserves st r.1 r.2
    obtain ⟨b1, b2, b3, b4, b5⟩ := ih (_handleAutoSubscribe st r.1 r.2)
    exact ⟨b1.trans a1, b2.trans a2, b3.trans a3, b4.trans a4, b5.trans a5⟩

theorem foldl_remove_fields (l : List AutoSubscription) :
    ∀ st : OwnerState,
      (l.foldl removeAutoSubscription st).handledAutoSubscriptions
        = st.handledAutoSubscriptions ∧
      (l.foldl removeAutoSubscription st).isMounted = st.isMounted ∧
      (l.foldl removeAutoSubscription st).nextId = st.nextId ∧
      (l.foldl removeAutoSubscription st).trackLog = st.trackLog ∧
      (l.foldl removeAutoSubscription st).buildCount = st.buildCount ∧
      (l.foldl removeAutoSubscription st).initBuildCount = st.initBuildCount ∧
      (l.foldl removeAutoSubscription st).updateEvalCount = st.updateEvalCount ∧
      (l.foldl removeAutoSubscription st).removedLog = st.removedLog ++ l := by
  induction l with
  | nil => intro st; exact ⟨rfl, rfl, rfl, rfl, rfl, rfl, rfl, by simp⟩
  | cons x xs ih =>
    intro st
    rw [List.foldl_cons]
    obtain ⟨b1, b2, b3, b4, b5, b6, b7, b8⟩ := ih (removeAutoSubscription st x)
    refine ⟨b1, b2, b3, b4, b5, b6, b7, ?_⟩
    rw [b8]
    simp [removeAutoSubscription]

theorem mem_storeIndex_foldl_remove {e : Nat × Nat × Key} (l : List AutoSubscription) :
    ∀ st : OwnerState, e ∈ (l.foldl removeAutoSubscription st).storeIndex →
      e ∈ st.storeIndex ∧ ∀ x ∈ l, e.1 ≠ x.id := by
  induction l with
  | nil => intro st h; exact ⟨h, by simp⟩
  | cons x xs ih =>
    intro st h
    rw [List.foldl_cons] at h
    obtain ⟨h1, h2⟩ := ih (removeAutoSubscription st x) h
    simp only [removeAutoSubscription, List.mem_filter, decide_eq_true_eq] at h1
    refine ⟨h1.1, ?_⟩
    intro y hy
    rcases List.mem_cons.mp hy with rfl | hy
    · exact h1.2
    · exact h2 y hy

theorem sweep_subs (st : OwnerState) :
    (sweep st).handledAutoSubscriptions
      = st.handledAutoSubscriptions.filter (fun s => s.used) := by
  show st.handledAutoSubscriptions.filter (fun s => !_shouldRemoveAndCleanupAutoSubscription s)
      = st.handledAutoSubscriptions.filter (fun s => s.used)
  apply List.filter_congr
  intro a _
  simp [_shouldRemoveAndCleanupAutoSubscription]

theorem sweep_removedLog (st : OwnerState) :
    (sweep st).removedLog = st.removedLog ++
      st.handledAutoSubscriptions.filter _shouldRemoveAndCleanupAutoSubscription := by
  show (List.foldl removeAutoSubscription st _).removedLog = _
  exact (foldl_remove_fields _ st).2.2.2.2.2.2.2

theorem sweep_preserves (st : OwnerState) :
    (sweep st).isMounted = st.isMounted ∧
    (sweep st).nextId = st.nextId ∧
    (sweep st).trackLog = st.trackLog ∧
    (sweep st).buildCount = st.buildCount ∧
    (sweep st).initBuildCount = st.initBuildCount ∧
    (sweep st).updateEvalCount = st.updateEvalCount := by
  obtain ⟨_, h2, h3, h4, h5, h6, h7, _⟩ := foldl_remove_fields
    (st.handledAutoSubscriptions.filter _shouldRemoveAndCleanupAutoSubscription) st
  exact ⟨h2, h3, h4, h5, h6, h7⟩

theorem mem_storeIndex_sweep {st : OwnerState} {e : Nat × Nat × Key}
    (h : e ∈ (sweep st).storeIndex) :
    e ∈ st.storeIndex ∧
      ∀ x ∈ st.handledAutoSubscriptions.filter _shouldRemoveAndCleanupAutoSubscription,
        e.1 ≠ x.id :=
  mem_storeIndex_foldl_remove _ st h

theorem findMatching_eq (st : OwnerState) (storeId : Nat) (key : Key) :
    _findMatchingAutoSubscription st storeId key
      = st.handledAutoSubscriptions.find? (matchPred storeId key) := rfl

theorem mem_sweep_used {st : OwnerState} {x : AutoSubscription}
    (h : x ∈ (sweep st).handledAutoSubscriptions) :
    x ∈ st.handledAutoSubscriptions ∧ x.used = true := by
  rw [sweep_subs] at h
  have := List.mem_filter.mp h
  exact ⟨this.1, by simpa using this.2⟩

theorem mem_sweep_of_used {st : OwnerState} {x : AutoSubscription}
    (hx : x ∈ st.handledAutoSubscriptions) (hu : x.used = true) :
    x ∈ (sweep st).handledAutoSubscriptions := by
  rw [sweep_subs]
  exact List.mem_filter.mpr ⟨hx, by simp [hu]⟩

theorem handle_persist_used {st : OwnerState} {storeId : Nat} {key : Key}
    {s : AutoSubscription} (hs : s ∈ st.handledAutoSubscriptions) (hu : s.used = true) :
    ∃ x ∈ (_handleAutoSubscribe st storeId key).handledAutoSubscriptions,
      shape x = shape s ∧ x.used = true := by
  cases h : _findMatchingAutoSubscription st storeId key with
  | some y =>
    rw [handle_of_some h]
    rcases mem_markFirst_of_mem (p := matchPred storeId key) hs with h' | h'
    · exact ⟨s, h', rfl, hu⟩
    · exact ⟨_, h', by simp [shape], rfl⟩
  | none =>
    rw [handle_of_none h]
    exact ⟨s, by simp [hs], rfl, hu⟩

theorem runReads_persist_used (reads : List (Nat × Key)) :
    ∀ (st : OwnerState) (s : AutoSubscription),
      s ∈ st.handledAutoSubscriptions → s.used = true →
      ∃ x ∈ (runReads st reads).handledAutoSubscriptions, shape x = shape s ∧ x.used = true := by
  induction reads with
  | nil => intro st s hs hu; exact ⟨s, hs, rfl, hu⟩
  | cons r rs ih =>
    intro st s hs hu
    rw [runReads_cons]
    obtain ⟨x, hx, hsh, hxu⟩ := handle_persist_used hs hu
    obtain ⟨y, hy, hsh', hyu⟩ := ih _ x hx hxu
    exact ⟨y, hy, hsh'.trans hsh, hyu⟩

theorem runReads_covered (reads : List (Nat × Key)) :
    ∀ (st : OwnerState) (r : Nat × Key), r ∈ reads →
      ∃ s ∈ (runReads st reads).handledAutoSubscriptions,
        matchPred r.1 r.2 s = true ∧ s.used = true := by
  induction reads with
  | nil => intro st r h; simp at h
  | cons r₀ rs ih =>
    intro st r hr
    rw [runReads_cons]
    rcases List.mem_cons.mp hr with rfl | hr
    · have hstep : ∃ s ∈ (_handleAutoSubscribe st r.1 r.2).handledAutoSubscriptions,
          matchPred r.1 r.2 s = true ∧ s.used = true := by
        cases h : _findMatchingAutoSubscription st r.1 r.2 with
        | some y =>
          have hfind : st.handledAutoSubscriptions.find? (matchPred r.1 r.2) = some y := by
            rw [← findMatching_eq]; exact h
          obtain ⟨l₁, l₂, hdec, hl₁, hpy, hm⟩ := markFirst_decomp hfind
          rw [handle_of_some h]
          refine ⟨{ y with used := true }, ?_, ?_, rfl⟩
          · show _ ∈ markFirst (matchPred r.1 r.2) st.handledAutoSubscriptions
            rw [hm]; simp
          · rw [← hpy]
            exact matchPred_congr (by simp [shape])
        | none =>
          rw [handle_of_none h]
          exact ⟨newSub st r.1 r.2, by simp, by simp [newSub, matchPred], rfl⟩
      obtain ⟨s, hs, hm, hu⟩ := hstep
      obtain ⟨x, hx, hsh, hxu⟩ := runReads_persist_used rs _ s hs hu
      exact ⟨x, hx, by rw [matchPred_congr hsh]; exact hm, hxu⟩
    · exact ih _ r hr

theorem runReads_used_represents (reads : List (Nat × Key)) :
    ∀ (st : OwnerState) (s : AutoSubscription),
      s ∈ (runReads st reads).handledAutoSubscriptions → s.used = true →
      (∃ x ∈ st.handledAutoSubscriptions, shape x = shape s ∧ x.used = true) ∨
      (∃ r ∈ reads, s.storeId = r.1 ∧ (s.key = r.2 ∨ s.key = Key.all)) := by
  induction reads with
  | nil => intro st s hs hu; exact Or.inl ⟨s, hs, rfl, hu⟩
  | cons r rs ih =>
    intro st s hs hu
    rw [runReads_cons] at hs
    rcases ih _ s hs hu with ⟨x, hx, hsh, hxu⟩ | ⟨rd, hrd, hrep⟩
    · cases h : _findMatchingAutoSubscription st r.1 r.2 with
      | some y =>
        rw [handle_of_some h] at hx
        rcases mem_of_mem_markFirst hx with hx' | ⟨y', hy', hpy', rfl⟩
        · exact Or.inl ⟨x, hx', hsh, hxu⟩
        · right
          refine ⟨r, by simp, ?_⟩
          obtain ⟨h1, h2⟩ := (matchPred_eq_true).mp hpy'
          rcases shape_eq_iff.mp hsh with ⟨_, hst, hk⟩
          constructor
          · rw [← hst]; exact h1
          · rw [← hk]; exact h2
      | none =>
        rw [handle_of_none h] at hx
        rcases List.mem_append.mp hx with hx' | hx'
        · exact Or.inl ⟨x, hx', hsh, hxu⟩
        · right
          refine ⟨r, by simp, ?_⟩
          have : x = newSub st r.1 r.2 := by simpa using hx'
          rcases shape_eq_iff.mp hsh with ⟨_, hst, hk⟩
          subst this
          constructor
          · rw [← hst]; rfl
          · left; rw [← hk]; rfl
    · exact Or.inr ⟨rd, List.mem_cons_of_mem _ hrd, hrep⟩

theorem handle_pairsOf (st : OwnerState) (storeId : Nat) (key : Key) :
    pairsOf (_handleAutoSubscribe st storeId key).handledAutoSubscriptions
        = pairsOf st.handledAutoSubscriptions ∨
      (pairsOf (_handleAutoSubscribe st storeId key).handledAutoSubscriptions
          = pairsOf st.handledAutoSubscriptions ++ [(storeId, key)] ∧
        (storeId, key) ∉ pairsOf st.handledAutoSubscriptions) := by
  cases h : _findMatchingAutoSubscription st storeId key with
  | some y =>
    rw [handle_of_some h]
    exact Or.inl (pairsOf_markFirst _ _)
  | none =>
    rw [handle_of_none h]
    right
    constructor
    · simp [pairsOf, newSub]
    · intro hmem
      rw [findMatching_eq] at h
      rcases List.mem_map.mp hmem with ⟨y, hy, hpair⟩
      have := List.find?_eq_none.mp h y hy
      apply this
      apply matchPred_eq_true.mpr
      have h1 : y.storeId = storeId := congrArg Prod.fst hpair
      have h2 : y.key = key := congrArg Prod.snd hpair
      exact ⟨h1, Or.inl h2⟩

theorem runReads_nodup_pairs (reads : List (Nat × Key)) :
    ∀ st : OwnerState, distinctPairs st.handledAutoSubscriptions →
      distinctPairs (runReads st reads).handledAutoSubscriptions := by
  induction reads with
  | nil => intro st h; exact h
  | cons r rs ih =>
    intro st h
    rw [runReads_cons]
    apply ih
    rcases handle_pairsOf st r.1 r.2 with heq | ⟨heq, hnot⟩
    · unfold distinctPairs; rw [heq]; exact h
    · unfold distinctPairs
      rw [heq]
      simp only [List.nodup_append, List.nodup_cons, List.nodup_nil]
      refine ⟨h, by simp, ?_⟩
      intro a ha hb
      simp only [List.mem_singleton] at hb
      subst hb
      exact hnot ha

theorem distinctPairs_sweep {st : OwnerState} (h : distinctPairs st.handledAutoSubscriptions) :
    distinctPairs (sweep st).handledAutoSubscriptions := by
  unfold distinctPairs pairsOf at h ⊢
  rw [sweep_subs]
  exact h.sublist (List.Sublist.map _ (List.filter_sublist _))

theorem handle_wf {st : OwnerState} {storeId : Nat} {key : Key} (h : WellFormed st) :
    WellFormed (_handleAutoSubscribe st storeId key) := by
  obtain ⟨hnd, hlt⟩ := h
  cases hm : _findMatchingAutoSubscription st storeId key with
  | some y =>
    rw [handle_of_some hm]
    constructor
    · show ((markFirst _ _).map AutoSubscription.id).Nodup
      rw [idsOf_markFirst]; exact hnd
    · intro s hs
      rcases mem_of_mem_markFirst hs with hs' | ⟨y', hy', _, rfl⟩
      · exact hlt s hs'
      · exact hlt y' hy'
  | none =>
    rw [handle_of_none hm]
    constructor
    · show ((st.handledAutoSubscriptions ++ [newSub st storeId key]).map
        AutoSubscription.id).Nodup
      rw [List.map_append]
      simp only [List.nodup_append, List.nodup_cons, List.nodup_nil, List.map_cons,
        List.map_nil]
      refine ⟨hnd, by simp, ?_⟩
      intro a ha hb
      simp only [List.mem_singleton] at hb
      rcases List.mem_map.mp ha with ⟨x, hx, rfl⟩
      have := hlt x hx
      simp [newSub] at hb
      omega
    · intro s hs
      rcases List.mem_append.mp hs with hs' | hs'
      · have := hlt s hs'
        show s.id < st.nextId + 1
        omega
      · have : s = newSub st storeId key := by simpa using hs'
        subst this
        show st.nextId < st.nextId + 1
        omega

theorem runReads_wf (reads : List (Nat × Key)) :
    ∀ st : OwnerState, WellFormed st → WellFormed (runReads st reads) := by
  induction reads with
  | nil => intro st h; exact h
  | cons r rs ih =>
    intro st h
    rw [runReads_cons]
    exact ih _ (handle_wf h)

theorem sweep_wf {st : OwnerState} (h : WellFormed st) : WellFormed (sweep st) := by
  obtain ⟨hnd, hlt⟩ := h
  constructor
  · rw [sweep_subs]
    exact hnd.sublist (List.Sublist.map _ (List.filter_sublist _))
  · intro s hs
    obtain ⟨hs', _⟩ := mem_sweep_used hs
    rw [(sweep_preserves st).2.1]
    exact hlt s hs'

theorem resetUsed_wf {st : OwnerState} (h : WellFormed st) :
    WellFormed { st with handledAutoSubscriptions := resetUsed st.handledAutoSubscriptions } := by
  obtain ⟨hnd, hlt⟩ := h
  constructor
  · show ((resetUsed _).map AutoSubscription.id).Nodup
    rw [idsOf_resetUsed]; exact hnd
  · intro s hs
    obtain ⟨x, hx, rfl⟩ := mem_of_mem_resetUsed hs
    exact hlt x hx

theorem reconcile_ok (st : OwnerState) (reads : List (Nat × Key)) (draft : Option (List String)) :
    _buildStateWithAutoSubscriptions st { reads := reads, outcome := BuildOutcome.ok draft }
      = (sweep (runReads { st with
            handledAutoSubscriptions := resetUsed st.handledAutoSubscriptions,
            buildCount := st.buildCount + 1 } reads),
         Except.ok draft) := rfl

theorem reconcile_fault_eq (st : OwnerState) (reads : List (Nat × Key)) :
    _buildStateWithAutoSubscriptions st { reads := reads, outcome := BuildOutcome.fault }
      = (runReads { st with
            handledAutoSubscriptions := resetUsed st.handledAutoSubscriptions,
            buildCount := st.buildCount + 1 } reads,
         Except.error ()) := rfl

theorem used_false_of_mem_resetUsed {l : List AutoSubscription} {x : AutoSubscription}
    (h : x ∈ resetUsed l) : x.used = false := by
  obtain ⟨s, _, rfl⟩ := mem_of_mem_resetUsed h
  rfl

theorem reconcile_wf {st : OwnerState} (h : WellFormed st) (b : Build) :
    WellFormed (_buildStateWithAutoSubscriptions st b).1 := by
  have h1 : WellFormed { st with
      handledAutoSubscriptions := resetUsed st.handledAutoSubscriptions,
      buildCount := st.buildCount + 1 } := by
    obtain ⟨hnd, hlt⟩ := resetUsed_wf h
    exact ⟨hnd, hlt⟩
  unfold _buildStateWithAutoSubscriptions
  cases b.outcome with
  | fault => exact runReads_wf _ _ h1
  | ok draft => exact sweep_wf (runReads_wf _ _ h1)

/-- C1: at the end of any build that runs to completion, the subscription
registry left by `_buildStateWithAutoSubscriptions` contains exactly one
subscription per distinct (storeId, key) pair read during the build — every
surviving subscription is justified by some read (a specific-key read justifies
a `Key_All` subscription on the same store through the absorption rule), every
read is represented by some surviving subscription (either with its exact key
or through a `Key_All` subscription on the same store), and the registry's
(storeId, key) pairs are pairwise distinct. -/
theorem C1_exact_set (st : OwnerState) (reads : List (Nat × Key))
    (draft : Option (List String))
    (hd : distinctPairs st.handledAutoSubscriptions) :
    (∀ s ∈ ((_buildStateWithAutoSubscriptions st
        { reads := reads, outcome := BuildOutcome.ok draft }).1).handledAutoSubscriptions,
      ∃ r ∈ reads, s.storeId = r.1 ∧ (s.key = r.2 ∨ s.key = Key.all)) ∧
    (∀ r ∈ reads,
      ∃ s ∈ ((_buildStateWithAutoSubscriptions st
        { reads := reads, outcome := BuildOutcome.ok draft }).1).handledAutoSubscriptions,
      s.storeId = r.1 ∧ (s.key = r.2 ∨ s.key = Key.all)) ∧
    distinctPairs ((_buildStateWithAutoSubscriptions st
      { reads := reads, outcome := BuildOutcome.ok draft }).1).handledAutoSubscriptions := by
  rw [reconcile_ok]
  set st1 : OwnerState := { st with
    handledAutoSubscriptions := resetUsed st.handledAutoSubscriptions,
    buildCount := st.buildCount + 1 } with hst1
  refine ⟨?_, ?_, ?_⟩
  · intro s hs
    obtain ⟨hmem, hused⟩ := mem_sweep_used hs
    rcases runReads_used_represents reads st1 s hmem hused with ⟨x, hx, _, hxu⟩ | hrep
    · have : x.used = false := used_false_of_mem_resetUsed hx
      rw [this] at hxu
      exact absurd hxu (by simp)
    · exact hrep
  · intro r hr
    obtain ⟨s, hs, hm, hu⟩ := runReads_covered reads st1 r hr
    refine ⟨s, mem_sweep_of_used hs hu, ?_⟩
    exact matchPred_eq_true.mp hm
  · apply distinctPairs_sweep
    apply runReads_nodup_pairs
    show (pairsOf (resetUsed st.handledAutoSubscriptions)).Nodup
    rw [pairsOf_resetUsed]
    exact hd

/-- Witness for C1 at a concrete input: a fresh owner, a build reading
(store 0, key "x") twice and (store 1, `Key_All`) once. -/
theorem C1_exact_set_witness :
    distinctPairs fresh.handledAutoSubscriptions ∧
    ((∀ s ∈ ((_buildStateWithAutoSubscriptions fresh
        { reads := [(0, Key.specific "x"), (0, Key.specific "x"), (1, Key.all)],
          outcome := BuildOutcome.ok none }).1).handledAutoSubscriptions,
      ∃ r ∈ [(0, Key.specific "x"), (0, Key.specific "x"), (1, Key.all)],
        s.storeId = r.1 ∧ (s.key = r.2 ∨ s.key = Key.all)) ∧
    (∀ r ∈ [(0, Key.specific "x"), (0, Key.specific "x"), (1, Key.all)],
      ∃ s ∈ ((_buildStateWithAutoSubscriptions fresh
        { reads := [(0, Key.specific "x"), (0, Key.specific "x"), (1, Key.all)],
          outcome := BuildOutcome.ok none }).1).handledAutoSubscriptions,
      s.storeId = r.1 ∧ (s.key = r.2 ∨ s.key = Key.all)) ∧
    distinctPairs ((_buildStateWithAutoSubscriptions fresh
      { reads := [(0, Key.specific "x"), (0, Key.specific "x"), (1, Key.all)],
        outcome := BuildOutcome.ok none }).1).handledAutoSubscriptions) :=
  ⟨by decide,
   C1_exact_set fresh [(0, Key.specific "x"), (0, Key.specific "x"), (1, Key.all)] none
     (by decide)⟩

theorem eq_of_id_eq {l : List AutoSubscription} (hnd : (l.map AutoSubscription.id).Nodup)
    {a b : AutoSubscription} (ha : a ∈ l) (hb : b ∈ l) (h : a.id = b.id) : a = b := by
  have := List.inj_on_of_nodup_map hnd
  exact this ha hb h

theorem handle_unmatched {st : OwnerState} {storeId : Nat} {key : Key} {d : AutoSubscription}
    (hd : d ∈ st.handledAutoSubscriptions)
    (hno : matchPred storeId key d = false)
    (huniq : ∀ x ∈ st.handledAutoSubscriptions, x.id = d.id → x = d)
    (hlt : d.id < st.nextId) :
    d ∈ (_handleAutoSubscribe st storeId key).handledAutoSubscriptions ∧
    (∀ x ∈ (_handleAutoSubscribe st storeId key).handledAutoSubscriptions,
      x.id = d.id → x = d) ∧
    d.id < (_handleAutoSubscribe st storeId key).nextId := by
  cases h : _findMatchingAutoSubscription st storeId key with
  | some y =>
    rw [handle_of_some h]
    refine ⟨mem_markFirst_self hd hno, ?_, hlt⟩
    intro x hx hid
    rcases mem_of_mem_markFirst hx with hx' | ⟨y', hy', hpy', rfl⟩
    · exact huniq x hx' hid
    · have : y' = d := huniq y' hy' (by simpa using hid)
      subst this
      rw [hno] at hpy'
      exact absurd hpy' (by simp)
  | none =>
    rw [handle_of_none h]
    refine ⟨by simp [hd], ?_, by show d.id < st.nextId + 1; omega⟩
    intro x hx hid
    rcases List.mem_append.mp hx with hx' | hx'
    · exact huniq x hx' hid
    · have : x = newSub st storeId key := by simpa using hx'
      subst this
      have : st.nextId = d.id := hid
      omega

theorem runReads_unmatched (reads : List (Nat × Key)) :
    ∀ (st : OwnerState) (d : AutoSubscription),
      d ∈ st.handledAutoSubscriptions →
      (∀ r ∈ reads, matchPred r.1 r.2 d = false) →
      (∀ x ∈ st.handledAutoSubscriptions, x.id = d.id → x = d) →
      d.id < st.nextId →
      d ∈ (runReads st reads).handledAutoSubscriptions ∧
      (∀ x ∈ (runReads st reads).handledAutoSubscriptions, x.id = d.id → x = d) := by
  induction reads with
  | nil => intro st d hd _ huniq _; exact ⟨hd, huniq⟩
  | cons r rs ih =>
    intro st d hd hno huniq hlt
    rw [runReads_cons]
    obtain ⟨hd', huniq', hlt'⟩ := handle_unmatched hd (hno r (by simp)) huniq hlt
    exact ih _ d hd' (fun r' hr' => hno r' (List.mem_cons_of_mem _ hr')) huniq' hlt'

/-- C2 counterexample: the pair (store 0, `Key_All`) is read during build 1 and
is not read during build 2 (which reads only the specific key "y" on store 0),
yet after build 2 its subscription is still present in both the owner's
registry and the store's index, and nothing was ever deregistered — the
specific-key read was absorbed by the `Key_All` subscription and marked it
used, so the sweep kept it, contradicting the claim as stated. -/
theorem C2_sweep_counterexample :
    ((0, Key.all) ∈ [((0 : Nat), Key.all)]) ∧
    ((0, Key.all) ∉ [((0 : Nat), Key.specific "y")]) ∧
    ((_buildStateWithAutoSubscriptions
        ((_buildStateWithAutoSubscriptions fresh
          { reads := [(0, Key.all)], outcome := BuildOutcome.ok none }).1)
        { reads := [(0, Key.specific "y")], outcome := BuildOutcome.ok none }).1
      ).handledAutoSubscriptions
      = [{ id := 0, storeId := 0, key := Key.all, used := true }] ∧
    ((_buildStateWithAutoSubscriptions
        ((_buildStateWithAutoSubscriptions fresh
          { reads := [(0, Key.all)], outcome := BuildOutcome.ok none }).1)
        { reads := [(0, Key.specific "y")], outcome := BuildOutcome.ok none }).1
      ).storeIndex
      = [(0, 0, Key.all)] ∧
    ((_buildStateWithAutoSubscriptions
        ((_buildStateWithAutoSubscriptions fresh
          { reads := [(0, Key.all)], outcome := BuildOutcome.ok none }).1)
        { reads := [(0, Key.specific "y")], outcome := BuildOutcome.ok none }).1
      ).removedLog = [] := by
  decide

/-- C2 (amended): if a subscription held at the start of build N+1 is matched
by no read of build N+1 — its exact (storeId, key) pair is not read and, when
its key is `Key_All`, no key on its store is read at all — then after build
N+1 completes, no subscription with its identity remains in the owner's
registry, no entry for it remains in the store's index, and
`removeAutoSubscription` was called on it (with `used` reset to `false`). -/
theorem C2_sweep_amended (st : OwnerState) (reads : List (Nat × Key))
    (draft : Option (List String)) (s : AutoSubscription)
    (hwf : WellFormed st)
    (hs : s ∈ st.handledAutoSubscriptions)
    (hno : ∀ r ∈ reads, ¬(s.storeId = r.1 ∧ (s.key = r.2 ∨ s.key = Key.all))) :
    (∀ x ∈ ((_buildStateWithAutoSubscriptions st
        { reads := reads, outcome := BuildOutcome.ok draft }).1).handledAutoSubscriptions,
      x.id ≠ s.id) ∧
    (∀ e ∈ ((_buildStateWithAutoSubscriptions st
        { reads := reads, outcome := BuildOutcome.ok draft }).1).storeIndex,
      e.1 ≠ s.id) ∧
    { s with used := false } ∈ ((_buildStateWithAutoSubscriptions st
        { reads := reads, outcome := BuildOutcome.ok draft }).1).removedLog := by
  obtain ⟨hnd, hlt⟩ := hwf
  rw [reconcile_ok]
  set st1 : OwnerState := { st with
    handledAutoSubscriptions := resetUsed st.handledAutoSubscriptions,
    buildCount := st.buildCount + 1 } with hst1
  set d : AutoSubscription := { s with used := false } with hdd
  have hd1 : d ∈ st1.handledAutoSubscriptions := mem_resetUsed_of_mem hs
  have hnod : ∀ r ∈ reads, matchPred r.1 r.2 d = false := by
    intro r hr
    have hcongr : matchPred r.1 r.2 d = matchPred r.1 r.2 s :=
      matchPred_congr (by simp [shape, hdd])
    rw [hcongr]
    by_contra hcon
    have : matchPred r.1 r.2 s = true := by
      revert hcon; cases matchPred r.1 r.2 s <;> simp
    exact hno r hr (matchPred_eq_true.mp this)
  have huniq1 : ∀ x ∈ st1.handledAutoSubscriptions, x.id = d.id → x = d := by
    intro x hx hid
    obtain ⟨t, ht, rfl⟩ := mem_of_mem_resetUsed hx
    have : t = s := eq_of_id_eq hnd ht hs (by simpa [hdd] using hid)
    rw [this]
  have hlt1 : d.id < st1.nextId := by
    show s.id < st.nextId
    exact hlt s hs
  obtain ⟨hdmem, huniq⟩ := runReads_unmatched reads st1 d hd1 hnod huniq1 hlt1
  set cur : OwnerState := runReads st1 reads with hcur
  have hdur : d.used = false := rfl
  have hdrem : d ∈ cur.handledAutoSubscriptions.filter
      _shouldRemoveAndCleanupAutoSubscription := by
    apply List.mem_filter.mpr
    exact ⟨hdmem, by simp [_shouldRemoveAndCleanupAutoSubscription, hdur]⟩
  refine ⟨?_, ?_, ?_⟩
  · intro x hx
    obtain ⟨hxmem, hxu⟩ := mem_sweep_used hx
    intro hid
    have : x = d := huniq x hxmem (by simpa [hdd] using hid)
    rw [this] at hxu
    rw [hdur] at hxu
    exact absurd hxu (by simp)
  · intro e he
    have := (mem_storeIndex_sweep he).2 d hdrem
    simpa [hdd] using this
  · rw [sweep_removedLog]
    apply List.mem_append.mpr
    right
    exact hdrem

/-- Concrete owner used as the C2 witness input: it holds one live
subscription to (store 0, key "x"). -/
def c2owner : OwnerState :=
  { handledAutoSubscriptions :=
      [{ id := 0, storeId := 0, key := Key.specific "x", used := true }],
    isMounted := true, nextId := 1, storeIndex := [(0, 0, Key.specific "x")],
    trackLog := [{ id := 0, storeId := 0, key := Key.specific "x", used := true }],
    removedLog := [], buildCount := 1, initBuildCount := 1, updateEvalCount := 0 }

/-- The single live subscription of `c2owner`. -/
def c2sub : AutoSubscription :=
  { id := 0, storeId := 0, key := Key.specific "x", used := true }

/-- Witness for C2 (amended) at a concrete input: `c2owner`, rebuilt with a
single read of (store 1, `Key_All`), which matches nothing it holds. -/
theorem C2_sweep_amended_witness :
    WellFormed c2owner ∧
    c2sub ∈ c2owner.handledAutoSubscriptions ∧
    (∀ r ∈ [((1 : Nat), Key.all)],
      ¬(c2sub.storeId = r.1 ∧ (c2sub.key = r.2 ∨ c2sub.key = Key.all))) ∧
    ((∀ x ∈ ((_buildStateWithAutoSubscriptions c2owner
        { reads := [(1, Key.all)], outcome := BuildOutcome.ok none }).1
          ).handledAutoSubscriptions,
      x.id ≠ c2sub.id) ∧
    (∀ e ∈ ((_buildStateWithAutoSubscriptions c2owner
        { reads := [(1, Key.all)], outcome := BuildOutcome.ok none }).1).storeIndex,
      e.1 ≠ c2sub.id) ∧
    { c2sub with used := false } ∈ ((_buildStateWithAutoSubscriptions c2owner
        { reads := [(1, Key.all)], outcome := BuildOutcome.ok none }).1).removedLog) :=
  ⟨by decide, by decide, by decide,
   C2_sweep_amended c2owner [(1, Key.all)] none c2sub
     (by decide) (by decide) (by decide)⟩

/-- C5: teardown is complete for any number of live subscriptions (including
zero): after `componentWillUnmount` the registry is empty and the mounted flag
is cleared; every previously held subscription was passed to
`removeAutoSubscription` with `used` reset to `false`; no store-index entry
for any of the owner's former subscriptions remains; and any store
notification subsequently delivered through the owner's callback is a no-op
(the state is untouched, no build runs, `setState` is not called). -/
theorem C5_unmount_complete (st : OwnerState) :
    (componentWillUnmount st).handledAutoSubscriptions = [] ∧
    (componentWillUnmount st).isMounted = false ∧
    (componentWillUnmount st).removedLog
      = st.removedLog ++ resetUsed st.handledAutoSubscriptions ∧
    (∀ s ∈ st.handledAutoSubscriptions, ∀ e ∈ (componentWillUnmount st).storeIndex,
      e.1 ≠ s.id) ∧
    (∀ b : Build, _onAutoSubscriptionChangedUnbound (componentWillUnmount st) b
      = (componentWillUnmount st, Except.ok none)) := by
  refine ⟨rfl, rfl, ?_, ?_, ?_⟩
  · show (List.foldl removeAutoSubscription
      { st with handledAutoSubscriptions := resetUsed st.handledAutoSubscriptions }
      (resetUsed st.handledAutoSubscriptions)).removedLog = _
    exact (foldl_remove_fields _ _).2.2.2.2.2.2.2
  · intro s hs e he
    have he' : e ∈ (List.foldl removeAutoSubscription
        { st with handledAutoSubscriptions := resetUsed st.handledAutoSubscriptions }
        (resetUsed st.handledAutoSubscriptions)).storeIndex := he
    obtain ⟨_, hall⟩ := mem_storeIndex_foldl_remove _ _ he'
    have := hall _ (mem_resetUsed_of_mem hs)
    simpa using this
  · intro b
    rfl

theorem handleUpdate_skip (st : OwnerState) (build : Build) :
    _handleUpdate st true build
      = ({ st with updateEvalCount := st.updateEvalCount + 1 }, Except.ok none) := rfl

theorem gdsfp_mounted (st : OwnerState) (propsEqual : Bool) (build : Build)
    (hm : st.isMounted = true) :
    getDerivedStateFromProps st propsEqual build = _handleUpdate st propsEqual build := by
  unfold getDerivedStateFromProps
  rw [hm]
  rfl

theorem runLifecycle_equal_updates (updates : List Build) :
    ∀ st : OwnerState, st.isMounted = true →
      runLifecycle st (updates.map fun b => LifecycleEvent.getDerived true b)
        = { st with updateEvalCount := st.updateEvalCount + updates.length } := by
  induction updates with
  | nil =>
    intro st _
    show st = _
    simp
  | cons b bs ih =>
    intro st hm
    show runLifecycle (stepLifecycle st (LifecycleEvent.getDerived true b)) _ = _
    have hstep : stepLifecycle st (LifecycleEvent.getDerived true b)
        = { st with updateEvalCount := st.updateEvalCount + 1 } := by
      show (getDerivedStateFromProps st true b).1 = _
      rw [gdsfp_mounted st true b hm, handleUpdate_skip]
    rw [hstep]
    rw [ih _ (by exact hm)]
    have : st.updateEvalCount + 1 + bs.length = st.updateEvalCount + (bs.length + 1) := by
      omega
    simp [this]

/-- C6: when the update-comparison policy judges the previous and next props
equal, `_handleUpdate` skips the rebuild entirely — the build function is not
invoked (the build counter is untouched), the registry and the store-side
state are not mutated in any way, and `null` is returned; consequently, with a
policy that always reports "equal", any number of prop-change evaluations
leaves a mounted owner's registry frozen (only the ghost evaluation counter
advances). -/
theorem C6_equal_props_skip (st : OwnerState) (build : Build) (updates : List Build)
    (hm : st.isMounted = true) :
    ((_handleUpdate st true build).1.handledAutoSubscriptions
        = st.handledAutoSubscriptions ∧
      (_handleUpdate st true build).1.buildCount = st.buildCount ∧
      (_handleUpdate st true build).1.storeIndex = st.storeIndex ∧
      (_handleUpdate st true build).1.trackLog = st.trackLog ∧
      (_handleUpdate st true build).1.removedLog = st.removedLog ∧
      (_handleUpdate st true build).2 = Except.ok none) ∧
    runLifecycle st (updates.map fun b => LifecycleEvent.getDerived true b)
      = { st with updateEvalCount := st.updateEvalCount + updates.length } := by
  refine ⟨⟨?_, ?_, ?_, ?_, ?_, ?_⟩, runLifecycle_equal_updates updates st hm⟩
  all_goals rw [handleUpdate_skip]

/-- Witness for C6 at a concrete input: a mounted owner holding one
subscription, with two prop-change evaluations judged "equal". -/
theorem C6_equal_props_skip_witness :
    c2owner.isMounted = true ∧
    (((_handleUpdate c2owner true _buildState_default).1.handledAutoSubscriptions
        = c2owner.handledAutoSubscriptions ∧
      (_handleUpdate c2owner true _buildState_default).1.buildCount = c2owner.buildCount ∧
      (_handleUpdate c2owner true _buildState_default).1.storeIndex = c2owner.storeIndex ∧
      (_handleUpdate c2owner true _buildState_default).1.trackLog = c2owner.trackLog ∧
      (_handleUpdate c2owner true _buildState_default).1.removedLog = c2owner.removedLog ∧
      (_handleUpdate c2owner true _buildState_default).2 = Except.ok none) ∧
    runLifecycle c2owner
        ([_buildState_default, _buildState_default].map
          fun b => LifecycleEvent.getDerived true b)
      = { c2owner with updateEvalCount := c2owner.updateEvalCount +
          [_buildState_default, _buildState_default].length }) :=
  ⟨by decide,
   C6_equal_props_skip c2owner _buildState_default
     [_buildState_default, _buildState_default] (by decide)⟩

theorem handle_persist_shape {st : OwnerState} {storeId : Nat} {key : Key}
    {x : AutoSubscription} (hx : x ∈ st.handledAutoSubscriptions) :
    ∃ y ∈ (_handleAutoSubscribe st storeId key).handledAutoSubscriptions,
      shape y = shape x := by
  cases h : _findMatchingAutoSubscription st storeId key with
  | some z =>
    rw [handle_of_some h]
    rcases mem_markFirst_of_mem (p := matchPred storeId key) hx with h' | h'
    · exact ⟨x, h', rfl⟩
    · exact ⟨_, h', by simp [shape]⟩
  | none =>
    rw [handle_of_none h]
    exact ⟨x, by simp [hx], rfl⟩

theorem runReads_persist_shape (reads : List (Nat × Key)) :
    ∀ (st : OwnerState) (x : AutoSubscription), x ∈ st.handledAutoSubscriptions →
      ∃ y ∈ (runReads st reads).handledAutoSubscriptions, shape y = shape x := by
  induction reads with
  | nil => intro st x hx; exact ⟨x, hx, rfl⟩
  | cons r rs ih =>
    intro st x hx
    rw [runReads_cons]
    obtain ⟨y, hy, hsh⟩ := handle_persist_shape hx
    obtain ⟨z, hz, hsh'⟩ := ih _ y hy
    exact ⟨z, hz, hsh'.trans hsh⟩

theorem handle_index_mono {st : OwnerState} {storeId : Nat} {key : Key}
    {e : Nat × Nat × Key} (he : e ∈ st.storeIndex) :
    e ∈ (_handleAutoSubscribe st storeId key).storeIndex := by
  cases h : _findMatchingAutoSubscription st storeId key with
  | some z => rw [handle_of_some h]; exact he
  | none => rw [handle_of_none h]; exact List.mem_append.mpr (Or.inl he)

theorem runReads_index_mono (reads : List (Nat × Key)) :
    ∀ (st : OwnerState) (e : Nat × Nat × Key), e ∈ st.storeIndex →
      e ∈ (runReads st reads).storeIndex := by
  induction reads with
  | nil => intro st e he; exact he
  | cons r rs ih =>
    intro st e he
    rw [runReads_cons]
    exact ih _ e (handle_index_mono he)

theorem runReads_tracked (reads : List (Nat × Key)) (base : List AutoSubscription) :
    ∀ st : OwnerState,
      (∀ t ∈ st.trackLog, t ∉ base →
        ((t.id, t.storeId, t.key) ∈ st.storeIndex ∧
          ∃ x ∈ st.handledAutoSubscriptions, shape x = shape t)) →
      ∀ t ∈ (runReads st reads).trackLog, t ∉ base →
        ((t.id, t.storeId, t.key) ∈ (runReads st reads).storeIndex ∧
          ∃ x ∈ (runReads st reads).handledAutoSubscriptions, shape x = shape t) := by
  induction reads with
  | nil => intro st h; exact h
  | cons r rs ih =>
    intro st h
    rw [runReads_cons]
    apply ih
    intro t ht hnb
    cases hm : _findMatchingAutoSubscription st r.1 r.2 with
    | some z =>
      rw [handle_of_some hm] at ht ⊢
      obtain ⟨hidx, x, hx, hsh⟩ := h t ht hnb
      refine ⟨hidx, ?_⟩
      rcases mem_markFirst_of_mem (p := matchPred r.1 r.2) hx with h' | h'
      · exact ⟨x, h', hsh⟩
      · exact ⟨_, h', by rw [← hsh]; simp [shape]⟩
    | none =>
      rw [handle_of_none hm] at ht ⊢
      rcases List.mem_append.mp ht with ht' | ht'
      · obtain ⟨hidx, x, hx, hsh⟩ := h t ht' hnb
        exact ⟨List.mem_append.mpr (Or.inl hidx),
          x, List.mem_append.mpr (Or.inl hx), hsh⟩
      · have : t = newSub st r.1 r.2 := by simpa using ht'
        subst this
        refine ⟨List.mem_append.mpr (Or.inr (by simp [newSub])), ?_⟩
        exact ⟨newSub st r.1 r.2, List.mem_append.mpr (Or.inr (by simp)), rfl⟩

/-- C7: a build-function fault is not caught: `_buildStateWithAutoSubscriptions`
propagates the exception, and it propagates unmodified through
`_buildInitialState` and `_handleUpdate`; the sweep never runs, so nothing is
deregistered (`removedLog` is unchanged), every pre-existing subscription is
still in the registry (even though its `used` flag was reset), the store-side
index keeps every pre-existing entry, and every subscription newly tracked
before the fault is still registered in both the registry and the index (no
rollback). -/
theorem C7_build_fault (st : OwnerState) (build : Build)
    (hf : build.outcome = BuildOutcome.fault) :
    (_buildStateWithAutoSubscriptions st build).2 = Except.error () ∧
    (_buildInitialState st build).2 = Except.error () ∧
    (_handleUpdate st false build).2 = Except.error () ∧
    (_buildStateWithAutoSubscriptions st build).1.removedLog = st.removedLog ∧
    (∀ s ∈ st.handledAutoSubscriptions,
      ∃ x ∈ (_buildStateWithAutoSubscriptions st build).1.handledAutoSubscriptions,
        shape x = shape s) ∧
    (∀ e ∈ st.storeIndex, e ∈ (_buildStateWithAutoSubscriptions st build).1.storeIndex) ∧
    (∀ t ∈ (_buildStateWithAutoSubscriptions st build).1.trackLog, t ∉ st.trackLog →
      ((t.id, t.storeId, t.key) ∈ (_buildStateWithAutoSubscriptions st build).1.storeIndex ∧
        ∃ x ∈ (_buildStateWithAutoSubscriptions st build).1.handledAutoSubscriptions,
          shape x = shape t)) := by
  obtain ⟨reads, outcome⟩ := build
  simp only at hf
  subst hf
  have hmain := reconcile_fault_eq st reads
  set st1 : OwnerState := { st with
    handledAutoSubscriptions := resetUsed st.handledAutoSubscriptions,
    buildCount := st.buildCount + 1 } with hst1
  refine ⟨?_, ?_, ?_, ?_, ?_, ?_, ?_⟩
  · rw [hmain]
  · rfl
  · rfl
  · rw [hmain]
    exact ((runReads_preserves reads st1).2.2.2.2).trans rfl
  · intro s hs
    rw [hmain]
    exact runReads_persist_shape reads st1 { s with used := false }
      (mem_resetUsed_of_mem hs) |>.imp
      fun x ⟨hx, hsh⟩ => ⟨hx, by rw [hsh]; simp [shape]⟩
  · intro e he
    rw [hmain]
    exact runReads_index_mono reads st1 e he
  · rw [hmain]
    exact runReads_tracked reads st.trackLog st1 (by intro t ht hnb; exact absurd ht hnb)

/-- Witness for C7 at a concrete input: a faulting build that reads
(store 0, key "x") before throwing, run on an owner holding one subscription. -/
theorem C7_build_fault_witness :
    (({ reads := [(0, Key.specific "x")], outcome := BuildOutcome.fault } : Build).outcome
        = BuildOutcome.fault) ∧
    ((_buildStateWithAutoSubscriptions c2owner
        { reads := [(0, Key.specific "x")], outcome := BuildOutcome.fault }).2
      = Except.error () ∧
    (_buildInitialState c2owner
        { reads := [(0, Key.specific "x")], outcome := BuildOutcome.fault }).2
      = Except.error () ∧
    (_handleUpdate c2owner false
        { reads := [(0, Key.specific "x")], outcome := BuildOutcome.fault }).2
      = Except.error () ∧
    (_buildStateWithAutoSubscriptions c2owner
        { reads := [(0, Key.specific "x")], outcome := BuildOutcome.fault }).1.removedLog
      = c2owner.removedLog ∧
    (∀ s ∈ c2owner.handledAutoSubscriptions,
      ∃ x ∈ (_buildStateWithAutoSubscriptions c2owner
        { reads := [(0, Key.specific "x")],
          outcome := BuildOutcome.fault }).1.handledAutoSubscriptions,
        shape x = shape s) ∧
    (∀ e ∈ c2owner.storeIndex, e ∈ (_buildStateWithAutoSubscriptions c2owner
        { reads := [(0, Key.specific "x")], outcome := BuildOutcome.fault }).1.storeIndex) ∧
    (∀ t ∈ (_buildStateWithAutoSubscriptions c2owner
        { reads := [(0, Key.specific "x")], outcome := BuildOutcome.fault }).1.trackLog,
      t ∉ c2owner.trackLog →
      ((t.id, t.storeId, t.key) ∈ (_buildStateWithAutoSubscriptions c2owner
          { reads := [(0, Key.specific "x")], outcome := BuildOutcome.fault }).1.storeIndex ∧
        ∃ x ∈ (_buildStateWithAutoSubscriptions c2owner
          { reads := [(0, Key.specific "x")],
            outcome := BuildOutcome.fault }).1.handledAutoSubscriptions,
          shape x = shape t))) :=
  ⟨rfl, C7_build_fault c2owner
    { reads := [(0, Key.specific "x")], outcome := BuildOutcome.fault } rfl⟩

theorem filter_used_resetUsed (l : List AutoSubscription) :
    (resetUsed l).filter (fun s => s.used) = [] := by
  rw [List.filter_eq_nil_iff]
  intro a ha
  simp [used_false_of_mem_resetUsed ha]

/-- C9: absorption is asymmetric — a `Key_All` read does not match an existing
specific-key subscription. If the owner holds no `Key_All` subscription for a
store, a `Key_All` read on it appends a fresh `Key_All` subscription and
leaves every existing subscription in place; and a build that reads the
specific key `k` and then `Key_All` on an untouched store ends with the
registry holding exactly two subscriptions for that store — one with key `k`
and one with `Key_All`. -/
theorem C9_all_read_asymmetric (st : OwnerState) (sid : Nat) (k : String)
    (d : Option (List String))
    (hall : ∀ s ∈ st.handledAutoSubscriptions, s.storeId = sid → s.key ≠ Key.all)
    (hnone : ∀ s ∈ st.handledAutoSubscriptions, s.storeId ≠ sid) :
    (_handleAutoSubscribe st sid Key.all).handledAutoSubscriptions
      = st.handledAutoSubscriptions ++ [newSub st sid Key.all] ∧
    ((_buildStateWithAutoSubscriptions st
        { reads := [(sid, Key.specific k), (sid, Key.all)],
          outcome := BuildOutcome.ok d }).1).handledAutoSubscriptions
      = [{ id := st.nextId, storeId := sid, key := Key.specific k, used := true },
         { id := st.nextId + 1, storeId := sid, key := Key.all, used := true }] := by
  constructor
  · have hfind : _findMatchingAutoSubscription st sid Key.all = none := by
      rw [findMatching_eq]
      rw [List.find?_eq_none]
      intro y hy hcon
      obtain ⟨h1, h2⟩ := matchPred_eq_true.mp hcon
      rcases h2 with h2 | h2 <;> exact hall y hy h1 h2
    rw [handle_of_none hfind]
  · rw [reconcile_ok]
    set st1 : OwnerState := { st with
      handledAutoSubscriptions := resetUsed st.handledAutoSubscriptions,
      buildCount := st.buildCount + 1 } with hst1
    have hn1 : ∀ s ∈ st1.handledAutoSubscriptions, s.storeId ≠ sid := by
      intro s hs
      obtain ⟨t, ht, rfl⟩ := mem_of_mem_resetUsed hs
      exact hnone t ht
    have hfind1 : _findMatchingAutoSubscription st1 sid (Key.specific k) = none := by
      rw [findMatching_eq, List.find?_eq_none]
      intro y hy hcon
      exact hn1 y hy (matchPred_eq_true.mp hcon).1
    set st2 : OwnerState := _handleAutoSubscribe st1 sid (Key.specific k) with hst2
    have hsubs2 : st2.handledAutoSubscriptions
        = resetUsed st.handledAutoSubscriptions ++ [newSub st1 sid (Key.specific k)] := by
      rw [hst2, handle_of_none hfind1]
    have hfind2 : _findMatchingAutoSubscription st2 sid Key.all = none := by
      rw [findMatching_eq, hsubs2, List.find?_eq_none]
      intro y hy hcon
      obtain ⟨h1, h2⟩ := matchPred_eq_true.mp hcon
      rcases List.mem_append.mp hy with hy' | hy'
      · exact hn1 y hy' h1
      · have : y = newSub st1 sid (Key.specific k) := by simpa using hy'
        subst this
        rcases h2 with h2 | h2 <;> exact absurd h2 (by simp [newSub])
    have hnext2 : st2.nextId = st.nextId + 1 := by
      rw [hst2, handle_of_none hfind1]
    have hrun : runReads st1 [(sid, Key.specific k), (sid, Key.all)]
        = _handleAutoSubscribe st2 sid Key.all := rfl
    rw [hrun, sweep_subs, handle_of_none hfind2]
    show ((st2.handledAutoSubscriptions ++ [newSub st2 sid Key.all]).filter _) = _
    rw [hsubs2, List.append_assoc, List.filter_append, filter_used_resetUsed]
    have : newSub st2 sid Key.all
        = { id := st.nextId + 1, storeId := sid, key := Key.all, used := true } := by
      rw [newSub, hnext2]
    rw [this]
    simp [newSub]

/-- Witness for C9 at a concrete input: a fresh owner, store 0, key "x". -/
theorem C9_all_read_asymmetric_witness :
    (∀ s ∈ fresh.handledAutoSubscriptions, s.storeId = 0 → s.key ≠ Key.all) ∧
    (∀ s ∈ fresh.handledAutoSubscriptions, s.storeId ≠ 0) ∧
    ((_handleAutoSubscribe fresh 0 Key.all).handledAutoSubscriptions
        = fresh.handledAutoSubscriptions ++ [newSub fresh 0 Key.all] ∧
    ((_buildStateWithAutoSubscriptions fresh
        { reads := [(0, Key.specific "x"), (0, Key.all)],
          outcome := BuildOutcome.ok none }).1).handledAutoSubscriptions
      = [{ id := fresh.nextId, storeId := 0, key := Key.specific "x", used := true },
         { id := fresh.nextId + 1, storeId := 0, key := Key.all, used := true }]) :=
  ⟨by decide, by decide, C9_all_read_asymmetric fresh 0 "x" none (by decide) (by decide)⟩

theorem buildInitial_ok (st : OwnerState) (reads : List (Nat × Key))
    (draft : Option (List String)) :
    _buildInitialState st { reads := reads, outcome := BuildOutcome.ok draft }
      = ((_buildStateWithAutoSubscriptions
            { st with initBuildCount := st.initBuildCount + 1 }
            { reads := reads, outcome := BuildOutcome.ok draft }).1,
         Except.ok (draft.getD [])) := rfl

theorem handleUpdate_build_eq (st : OwnerState) (reads : List (Nat × Key))
    (draft : Option (List String)) :
    _handleUpdate st false { reads := reads, outcome := BuildOutcome.ok draft }
      = (if draftNonEmpty draft
          then ((_buildStateWithAutoSubscriptions
              { st with updateEvalCount := st.updateEvalCount + 1 }
              { reads := reads, outcome := BuildOutcome.ok draft }).1, Except.ok draft)
          else ((_buildStateWithAutoSubscriptions
              { st with updateEvalCount := st.updateEvalCount + 1 }
              { reads := reads, outcome := BuildOutcome.ok draft }).1,
            Except.ok none)) := rfl

theorem onChanged_mounted_eq (st : OwnerState) (reads : List (Nat × Key))
    (draft : Option (List String)) (hm : st.isMounted = true) :
    _onAutoSubscriptionChangedUnbound st { reads := reads, outcome := BuildOutcome.ok draft }
      = (if draftNonEmpty draft
          then ((_buildStateWithAutoSubscriptions st
              { reads := reads, outcome := BuildOutcome.ok draft }).1, Except.ok draft)
          else ((_buildStateWithAutoSubscriptions st
              { reads := reads, outcome := BuildOutcome.ok draft }).1, Except.ok none)) := by
  unfold _onAutoSubscriptionChangedUnbound
  rw [hm]
  rfl

/-- C10: an `undefined` or empty draft produces no state update. The initial
build coalesces an `undefined`-or-empty draft to the empty object `{}`; the
default `_buildState` (no reads, `undefined` result) leaves a component with
`{}` as initial state, an empty registry and no new registrations; a
prop-change rebuild with an `undefined`-or-empty draft returns `null`; and the
store-change path of a mounted owner does not call `setState` for such a
draft. -/
theorem C10_empty_draft (st : OwnerState) (build : Build)
    (he : build.outcome = BuildOutcome.ok none ∨ build.outcome = BuildOutcome.ok (some []))
    (hm : st.isMounted = true) :
    (_buildInitialState st build).2 = Except.ok [] ∧
    ((_buildInitialState st _buildState_default).1.handledAutoSubscriptions = [] ∧
      (_buildInitialState st _buildState_default).1.trackLog = st.trackLog ∧
      (_buildInitialState st _buildState_default).2 = Except.ok []) ∧
    (_handleUpdate st false build).2 = Except.ok none ∧
    (_onAutoSubscriptionChangedUnbound st build).2 = Except.ok none := by
  obtain ⟨reads, outcome⟩ := build
  simp only at he
  have hdefault : ((_buildInitialState st _buildState_default).1.handledAutoSubscriptions
        = [] ∧
      (_buildInitialState st _buildState_default).1.trackLog = st.trackLog ∧
      (_buildInitialState st _buildState_default).2 = Except.ok []) := by
    refine ⟨?_, ?_, rfl⟩
    · show ((sweep _).handledAutoSubscriptions) = []
      rw [sweep_subs]
      exact filter_used_resetUsed _
    · show ((sweep _).trackLog) = st.trackLog
      exact ((sweep_preserves _).2.2.1).trans rfl
  rcases he with rfl | rfl
  · refine ⟨?_, hdefault, ?_, ?_⟩
    · rw [buildInitial_ok]
      rfl
    · rw [handleUpdate_build_eq]
      simp [draftNonEmpty]
    · rw [onChanged_mounted_eq st reads none hm]
      simp [draftNonEmpty]
  · refine ⟨?_, hdefault, ?_, ?_⟩
    · rw [buildInitial_ok]
      rfl
    · rw [handleUpdate_build_eq]
      simp [draftNonEmpty]
    · rw [onChanged_mounted_eq st reads (some []) hm]
      simp [draftNonEmpty]

/-- Witness for C10 at a concrete input: a mounted owner and a build returning
an empty object after one read. -/
theorem C10_empty_draft_witness :
    (({ reads := [(0, Key.specific "x")], outcome := BuildOutcome.ok (some []) } : Build
        ).outcome = BuildOutcome.ok none ∨
      ({ reads := [(0, Key.specific "x")], outcome := BuildOutcome.ok (some []) } : Build
        ).outcome = BuildOutcome.ok (some [])) ∧
    c2owner.isMounted = true ∧
    ((_buildInitialState c2owner
        { reads := [(0, Key.specific "x")], outcome := BuildOutcome.ok (some []) }).2
      = Except.ok [] ∧
    ((_buildInitialState c2owner _buildState_default).1.handledAutoSubscriptions = [] ∧
      (_buildInitialState c2owner _buildState_default).1.trackLog = c2owner.trackLog ∧
      (_buildInitialState c2owner _buildState_default).2 = Except.ok []) ∧
    (_handleUpdate c2owner false
        { reads := [(0, Key.specific "x")], outcome := BuildOutcome.ok (some []) }).2
      = Except.ok none ∧
    (_onAutoSubscriptionChangedUnbound c2owner
        { reads := [(0, Key.specific "x")], outcome := BuildOutcome.ok (some []) }).2
      = Except.ok none) :=
  ⟨Or.inr rfl, by decide,
   C10_empty_draft c2owner
     { reads := [(0, Key.specific "x")], outcome := BuildOutcome.ok (some []) }
     (Or.inr rfl) (by decide)⟩

/-- C4 counterexample: after a build reading (store 0, key "x") and then
(store 0, `Key_All`), the owner holds a `Key_All` subscription for store 0;
build 2 then performs the specific-key read (store 0, key "x") — under the
claim this read would mark the existing `Key_All` subscription used. In fact
first-match search marks the exact-key subscription instead, so the `Key_All`
subscription stays unused, is swept at the end of build 2 and is deregistered
from the store: the claim's "marks the existing Key_All subscription used"
conjunct fails. -/
theorem C4_absorption_counterexample :
    (∃ s ∈ ((_buildStateWithAutoSubscriptions fresh
        { reads := [(0, Key.specific "x"), (0, Key.all)],
          outcome := BuildOutcome.ok none }).1).handledAutoSubscriptions,
      s.storeId = 0 ∧ s.key = Key.all) ∧
    ((_buildStateWithAutoSubscriptions
        ((_buildStateWithAutoSubscriptions fresh
          { reads := [(0, Key.specific "x"), (0, Key.all)],
            outcome := BuildOutcome.ok none }).1)
        { reads := [(0, Key.specific "x")], outcome := BuildOutcome.ok none }).1
      ).handledAutoSubscriptions
      = [{ id := 0, storeId := 0, key := Key.specific "x", used := true }] ∧
    ((_buildStateWithAutoSubscriptions
        ((_buildStateWithAutoSubscriptions fresh
          { reads := [(0, Key.specific "x"), (0, Key.all)],
            outcome := BuildOutcome.ok none }).1)
        { reads := [(0, Key.specific "x")], outcome := BuildOutcome.ok none }).1
      ).removedLog
      = [{ id := 1, storeId := 0, key := Key.all, used := false }] := by
  decide

/-- C4 (amended): for an owner already holding a `Key_All` subscription for a
store, a later specific-key read on that store creates no second subscription
and never narrows any subscription's key (the registry's identities, store ids
and keys are all unchanged, and nothing new is tracked or registered); the
read always marks an existing matching subscription used: the `Key_All`
subscription whenever the owner holds no subscription with that exact specific
key, and the exact-key subscription itself whenever it precedes every other
match in first-match order (as it does in every reachable registry, where
exact-key subscriptions are created before the `Key_All` one). -/
theorem C4_absorption_amended (st : OwnerState) (sid : Nat) (k : String)
    (hall : ∃ s ∈ st.handledAutoSubscriptions, s.storeId = sid ∧ s.key = Key.all) :
    ((_handleAutoSubscribe st sid (Key.specific k)).handledAutoSubscriptions.map shape
        = st.handledAutoSubscriptions.map shape ∧
      (_handleAutoSubscribe st sid (Key.specific k)).trackLog = st.trackLog ∧
      (_handleAutoSubscribe st sid (Key.specific k)).storeIndex = st.storeIndex) ∧
    (∃ x ∈ (_handleAutoSubscribe st sid (Key.specific k)).handledAutoSubscriptions,
      x.storeId = sid ∧ (x.key = Key.specific k ∨ x.key = Key.all) ∧ x.used = true) ∧
    ((∀ s ∈ st.handledAutoSubscriptions, ¬(s.storeId = sid ∧ s.key = Key.specific k)) →
      ∃ x ∈ (_handleAutoSubscribe st sid (Key.specific k)).handledAutoSubscriptions,
        x.storeId = sid ∧ x.key = Key.all ∧ x.used = true) ∧
    (∀ l₁ e l₂, st.handledAutoSubscriptions = l₁ ++ e :: l₂ →
      e.storeId = sid → e.key = Key.specific k →
      (∀ y ∈ l₁, matchPred sid (Key.specific k) y = false) →
      { e with used := true }
        ∈ (_handleAutoSubscribe st sid (Key.specific k)).handledAutoSubscriptions) := by
  obtain ⟨s₀, hs₀, hsid, hkey⟩ := hall
  have hsome : ∃ y, _findMatchingAutoSubscription st sid (Key.specific k) = some y := by
    cases h : _findMatchingAutoSubscription st sid (Key.specific k) with
    | some y => exact ⟨y, rfl⟩
    | none =>
      rw [findMatching_eq, List.find?_eq_none] at h
      exact absurd (matchPred_eq_true.mpr ⟨hsid, Or.inr hkey⟩) (h s₀ hs₀)
  obtain ⟨y, hy⟩ := hsome
  have hfind : st.handledAutoSubscriptions.find? (matchPred sid (Key.specific k))
      = some y := by
    rw [← findMatching_eq]; exact hy
  have hymem : y ∈ st.handledAutoSubscriptions := List.mem_of_find?_eq_some hfind
  obtain ⟨l₁, l₂, _, _, hpy, hm⟩ := markFirst_decomp hfind
  obtain ⟨h1, h2⟩ := matchPred_eq_true.mp hpy
  rw [handle_of_some hy]
  refine ⟨⟨shapes_markFirst _ _, rfl, rfl⟩, ?_, ?_, ?_⟩
  · refine ⟨{ y with used := true }, ?_, h1, h2, rfl⟩
    show _ ∈ markFirst (matchPred sid (Key.specific k)) st.handledAutoSubscriptions
    rw [hm]
    simp
  · intro hspec
    have hkeyall : y.key = Key.all := by
      rcases h2 with h2 | h2
      · exact absurd ⟨h1, h2⟩ (hspec y hymem)
      · exact h2
    refine ⟨{ y with used := true }, ?_, h1, hkeyall, rfl⟩
    show _ ∈ markFirst (matchPred sid (Key.specific k)) st.handledAutoSubscriptions
    rw [hm]
    simp
  · intro m₁ e m₂ hdec hse hke hm₁
    have hfinde : st.handledAutoSubscriptions.find? (matchPred sid (Key.specific k))
        = some e := by
      rw [hdec]
      rw [find?_append_none (List.find?_eq_none.mpr
        (fun x hx hcon => by rw [hm₁ x hx] at hcon; exact absurd hcon (by simp)))]
      exact List.find?_cons_of_pos _ (matchPred_eq_true.mpr ⟨hse, Or.inl hke⟩)
    obtain ⟨n₁, n₂, _, _, _, hmk⟩ := markFirst_decomp hfinde
    show _ ∈ markFirst (matchPred sid (Key.specific k)) st.handledAutoSubscriptions
    rw [hmk]
    simp

/-- Concrete owner used as the C4 witness input: it holds an exact-key
subscription to (store 0, key "x") and a `Key_All` subscription to store 0. -/
def c4owner : OwnerState :=
  { handledAutoSubscriptions :=
      [{ id := 0, storeId := 0, key := Key.specific "x", used := false },
       { id := 1, storeId := 0, key := Key.all, used := false }],
    isMounted := true, nextId := 2,
    storeIndex := [(0, 0, Key.specific "x"), (1, 0, Key.all)],
    trackLog :=
      [{ id := 0, storeId := 0, key := Key.specific "x", used := true },
       { id := 1, storeId := 0, key := Key.all, used := true }],
    removedLog := [], buildCount := 1, initBuildCount := 1, updateEvalCount := 0 }

/-- Witness for C4 (amended) at a concrete input: `c4owner` and a read of the
specific key "y" on store 0, for which no exact-key subscription exists. -/
theorem C4_absorption_amended_witness :
    (∃ s ∈ c4owner.handledAutoSubscriptions, s.storeId = 0 ∧ s.key = Key.all) ∧
    (((_handleAutoSubscribe c4owner 0 (Key.specific "y")).handledAutoSubscriptions.map shape
        = c4owner.handledAutoSubscriptions.map shape ∧
      (_handleAutoSubscribe c4owner 0 (Key.specific "y")).trackLog = c4owner.trackLog ∧
      (_handleAutoSubscribe c4owner 0 (Key.specific "y")).storeIndex
        = c4owner.storeIndex) ∧
    (∃ x ∈ (_handleAutoSubscribe c4owner 0 (Key.specific "y")).handledAutoSubscriptions,
      x.storeId = 0 ∧ (x.key = Key.specific "y" ∨ x.key = Key.all) ∧ x.used = true) ∧
    ((∀ s ∈ c4owner.handledAutoSubscriptions,
        ¬(s.storeId = 0 ∧ s.key = Key.specific "y")) →
      ∃ x ∈ (_handleAutoSubscribe c4owner 0 (Key.specific "y")).handledAutoSubscriptions,
        x.storeId = 0 ∧ x.key = Key.all ∧ x.used = true) ∧
    (∀ l₁ e l₂, c4owner.handledAutoSubscriptions = l₁ ++ e :: l₂ →
      e.storeId = 0 → e.key = Key.specific "y" →
      (∀ y ∈ l₁, matchPred 0 (Key.specific "y") y = false) →
      { e with used := true }
        ∈ (_handleAutoSubscribe c4owner 0 (Key.specific "y")).handledAutoSubscriptions)) :=
  ⟨by decide, C4_absorption_amended c4owner 0 "y" (by decide)⟩

theorem handleUpdate_fault_eq (st : OwnerState) (reads : List (Nat × Key)) :
    _handleUpdate st false { reads := reads, outcome := BuildOutcome.fault }
      = ((_buildStateWithAutoSubscriptions
            { st with updateEvalCount := st.updateEvalCount + 1 }
            { reads := reads, outcome := BuildOutcome.fault }).1,
         Except.error ()) := rfl

theorem buildInitial_fault (st : OwnerState) (reads : List (Nat × Key)) :
    _buildInitialState st { reads := reads, outcome := BuildOutcome.fault }
      = ((_buildStateWithAutoSubscriptions
            { st with initBuildCount := st.initBuildCount + 1 }
            { reads := reads, outcome := BuildOutcome.fault }).1,
         Except.error ()) := rfl

theorem reconcile_preserves_lifecycle (st : OwnerState) (b : Build) :
    (_buildStateWithAutoSubscriptions st b).1.isMounted = st.isMounted ∧
    (_buildStateWithAutoSubscriptions st b).1.initBuildCount = st.initBuildCount ∧
    (_buildStateWithAutoSubscriptions st b).1.updateEvalCount = st.updateEvalCount := by
  obtain ⟨reads, outcome⟩ := b
  have hr := runReads_preserves reads { st with
    handledAutoSubscriptions := resetUsed st.handledAutoSubscriptions,
    buildCount := st.buildCount + 1 }
  cases outcome with
  | ok draft =>
    rw [reconcile_ok]
    have hs := sweep_preserves (runReads { st with
      handledAutoSubscriptions := resetUsed st.handledAutoSubscriptions,
      buildCount := st.buildCount + 1 } reads)
    exact ⟨hs.1.trans hr.1, (hs.2.2.2.2.1).trans hr.2.2.1,
      (hs.2.2.2.2.2).trans hr.2.2.2.1⟩
  | fault =>
    rw [reconcile_fault_eq]
    exact ⟨hr.1, hr.2.2.1, hr.2.2.2.1⟩

theorem buildInitial_fields (st : OwnerState) (b : Build) :
    (_buildInitialState st b).1.isMounted = st.isMounted ∧
    (_buildInitialState st b).1.initBuildCount = st.initBuildCount + 1 ∧
    (_buildInitialState st b).1.updateEvalCount = st.updateEvalCount := by
  obtain ⟨reads, outcome⟩ := b
  cases outcome with
  | ok draft =>
    rw [buildInitial_ok]
    exact reconcile_preserves_lifecycle { st with initBuildCount := st.initBuildCount + 1 } _
  | fault =>
    rw [buildInitial_fault]
    exact reconcile_preserves_lifecycle { st with initBuildCount := st.initBuildCount + 1 } _

theorem handleUpdate_fields (st : OwnerState) (pe : Bool) (b : Build) :
    (_handleUpdate st pe b).1.isMounted = st.isMounted ∧
    (_handleUpdate st pe b).1.initBuildCount = st.initBuildCount := by
  cases pe with
  | true => rw [handleUpdate_skip]; exact ⟨rfl, rfl⟩
  | false =>
    obtain ⟨reads, outcome⟩ := b
    cases outcome with
    | ok draft =>
      rw [handleUpdate_build_eq]
      have hp := reconcile_preserves_lifecycle
        { st with updateEvalCount := st.updateEvalCount + 1 }
        { reads := reads, outcome := BuildOutcome.ok draft }
      cases hd : draftNonEmpty draft with
      | true => rw [if_pos (by simp [hd])]; exact ⟨hp.1, hp.2.1⟩
      | false => rw [if_neg (by simp [hd])]; exact ⟨hp.1, hp.2.1⟩
    | fault =>
      rw [handleUpdate_fault_eq]
      have hp := reconcile_preserves_lifecycle
        { st with updateEvalCount := st.updateEvalCount + 1 }
        { reads := reads, outcome := BuildOutcome.fault }
      exact ⟨hp.1, hp.2.1⟩

theorem gdsfp_unmounted (st : OwnerState) (pe : Bool) (b : Build)
    (hm : st.isMounted = false) :
    (getDerivedStateFromProps st pe b).1 = (_buildInitialState st b).1 := by
  unfold getDerivedStateFromProps
  rw [hm]
  show (match _buildInitialState st b with
    | (st', Except.ok s) => (st', Except.ok (some s))
    | (st', Except.error e) => (st', Except.error e)).1 = _
  rcases hres : _buildInitialState st b with ⟨st', r⟩
  cases r <;> rfl

theorem step_update_fields {st : OwnerState} (pe : Bool) (b : Build)
    (hm : st.isMounted = true) :
    (stepLifecycle st (LifecycleEvent.getDerived pe b)).isMounted = true ∧
    (stepLifecycle st (LifecycleEvent.getDerived pe b)).initBuildCount
      = st.initBuildCount := by
  show (getDerivedStateFromProps st pe b).1.isMounted = true ∧
    (getDerivedStateFromProps st pe b).1.initBuildCount = st.initBuildCount
  rw [gdsfp_mounted st pe b hm]
  obtain ⟨f1, f2⟩ := handleUpdate_fields st pe b
  exact ⟨f1.trans hm, f2⟩

theorem runLifecycle_updates_fields :
    ∀ l : List LifecycleEvent, (∀ e ∈ l, isUpdateEvent e = true) →
      ∀ st : OwnerState, st.isMounted = true →
        (runLifecycle st l).isMounted = true ∧
        (runLifecycle st l).initBuildCount = st.initBuildCount := by
  intro l
  induction l with
  | nil => intro _ st hm; exact ⟨hm, rfl⟩
  | cons e es ih =>
    intro hl st hm
    have he := hl e (by simp)
    cases e with
    | getDerived pe b =>
      show (runLifecycle (stepLifecycle st (LifecycleEvent.getDerived pe b)) es
          ).isMounted = true ∧ _
      obtain ⟨s1, s2⟩ := step_update_fields pe b hm
      obtain ⟨a1, a2⟩ := ih (fun e' he' => hl e' (List.mem_cons_of_mem _ he')) _ s1
      exact ⟨a1, a2.trans s2⟩
    | didMount => simp [isUpdateEvent] at he
    | willUnmount => simp [isUpdateEvent] at he

theorem unmount_counters (st : OwnerState) :
    (componentWillUnmount st).initBuildCount = st.initBuildCount ∧
    (componentWillUnmount st).updateEvalCount = st.updateEvalCount := by
  constructor
  · show (List.foldl removeAutoSubscription
      { st with handledAutoSubscriptions := resetUsed st.handledAutoSubscriptions }
      (resetUsed st.handledAutoSubscriptions)).initBuildCount = _
    exact (foldl_remove_fields _ _).2.2.2.2.2.1
  · show (List.foldl removeAutoSubscription
      { st with handledAutoSubscriptions := resetUsed st.handledAutoSubscriptions }
      (resetUsed st.handledAutoSubscriptions)).updateEvalCount = _
    exact (foldl_remove_fields _ _).2.2.2.2.2.2.1

theorem runLifecycle_append (st : OwnerState) (l₁ l₂ : List LifecycleEvent) :
    runLifecycle st (l₁ ++ l₂) = runLifecycle (runLifecycle st l₁) l₂ := by
  simp [runLifecycle]

theorem base_after_one (st0 : OwnerState) (pe : Bool) (b : Build)
    (hm : st0.isMounted = false) (hi : st0.initBuildCount = 0)
    (hu : st0.updateEvalCount = 0) :
    (runLifecycle st0 [LifecycleEvent.getDerived pe b]).isMounted = false ∧
    (runLifecycle st0 [LifecycleEvent.getDerived pe b]).initBuildCount = 1 ∧
    (runLifecycle st0 [LifecycleEvent.getDerived pe b]).updateEvalCount = 0 := by
  have hg : (getDerivedStateFromProps st0 pe b).1 = (_buildInitialState st0 b).1 :=
    gdsfp_unmounted st0 pe b hm
  obtain ⟨f1, f2, f3⟩ := buildInitial_fields st0 b
  refine ⟨?_, ?_, ?_⟩
  · show (getDerivedStateFromProps st0 pe b).1.isMounted = false
    rw [hg, f1]; exact hm
  · show (getDerivedStateFromProps st0 pe b).1.initBuildCount = 1
    rw [hg, f2, hi]
  · show (getDerivedStateFromProps st0 pe b).1.updateEvalCount = 0
    rw [hg, f3]; exact hu

theorem base_after_two (st0 : OwnerState) (pe : Bool) (b : Build)
    (hm : st0.isMounted = false) (hi : st0.initBuildCount = 0)
    (hu : st0.updateEvalCount = 0) :
    (runLifecycle st0
      [LifecycleEvent.getDerived pe b, LifecycleEvent.didMount]).isMounted = true ∧
    (runLifecycle st0
      [LifecycleEvent.getDerived pe b, LifecycleEvent.didMount]).initBuildCount = 1 := by
  obtain ⟨_, b1i, _⟩ := base_after_one st0 pe b hm hi hu
  exact ⟨rfl, b1i⟩

/-- C8: under the host lifecycle contract (one `getDerivedStateFromProps` call
before the mount commit, then prop-change evaluations, then at most one
teardown), an owner starting fresh runs `_buildInitialState` exactly once over
its whole lifetime, and it has already run by the time any prop-change
evaluation (`_handleUpdate`) is counted: after any prefix of the trace in
which at least one update evaluation has happened, the initial-build counter
is already exactly 1, and it is exactly 1 at the end of the trace. -/
theorem C8_initial_build_once (st0 : OwnerState) (es : List LifecycleEvent)
    (hm : st0.isMounted = false) (hi : st0.initBuildCount = 0)
    (hu : st0.updateEvalCount = 0) (hv : ValidTrace es) :
    (runLifecycle st0 es).initBuildCount = 1 ∧
    ∀ p t, es = p ++ t → 0 < (runLifecycle st0 p).updateEvalCount →
      (runLifecycle st0 p).initBuildCount = 1 := by
  obtain ⟨pe, b, mid, tail, rfl, hmid, htail⟩ := hv
  obtain ⟨_, b1i, b1u⟩ := base_after_one st0 pe b hm hi hu
  obtain ⟨b2m, b2i⟩ := base_after_two st0 pe b hm hi hu
  have hmidfold := runLifecycle_updates_fields mid hmid _ b2m
  have hs3i : (runLifecycle (runLifecycle st0
      [LifecycleEvent.getDerived pe b, LifecycleEvent.didMount]) mid).initBuildCount
      = 1 := hmidfold.2.trans b2i
  constructor
  · show (runLifecycle st0
      ([LifecycleEvent.getDerived pe b, LifecycleEvent.didMount] ++ (mid ++ tail))
        ).initBuildCount = 1
    rw [runLifecycle_append, runLifecycle_append]
    rcases htail with rfl | rfl
    · exact hs3i
    · show (componentWillUnmount (runLifecycle (runLifecycle st0
        [LifecycleEvent.getDerived pe b, LifecycleEvent.didMount]) mid)
          ).initBuildCount = 1
      exact (unmount_counters _).1.trans hs3i
  · intro p t hpt hue
    cases p with
    | nil =>
      exfalso
      have : (runLifecycle st0 ([] : List LifecycleEvent)).updateEvalCount = 0 := hu
      omega
    | cons a p' =>
      simp only [List.cons_append] at hpt
      injection hpt with ha hpt2
      subst ha
      cases p' with
      | nil =>
        exfalso
        omega
      | cons a' p'' =>
        simp only [List.cons_append] at hpt2
        injection hpt2 with ha' hpt3
        subst ha'
        have hrunp : runLifecycle st0
            (LifecycleEvent.getDerived pe b :: LifecycleEvent.didMount :: p'')
              = runLifecycle (runLifecycle st0
                [LifecycleEvent.getDerived pe b, LifecycleEvent.didMount]) p'' := rfl
        rw [hrunp]
        rcases List.append_eq_append_iff.mp hpt3.symm with ⟨a2, hmid2, _⟩ | ⟨c', hq, htc⟩
        · have hup'' : ∀ e ∈ p'', isUpdateEvent e = true := by
            intro e he'
            exact hmid e (hmid2 ▸ List.mem_append_left _ he')
          exact (runLifecycle_updates_fields p'' hup'' _ b2m).2.trans b2i
        · subst hq
          rw [runLifecycle_append]
          rcases htail with rfl | rfl
          · obtain ⟨rfl, rfl⟩ := List.append_eq_nil.mp htc.symm
            exact hs3i
          · cases c' with
            | nil => exact hs3i
            | cons u' c'' =>
              injection htc with hu' htc2
              subst hu'
              obtain ⟨rfl, rfl⟩ := List.append_eq_nil.mp htc2.symm
              show (componentWillUnmount (runLifecycle (runLifecycle st0
                [LifecycleEvent.getDerived pe b, LifecycleEvent.didMount]) mid)
                  ).initBuildCount = 1
              exact (unmount_counters _).1.trans hs3i

/-- Witness for C8 at a concrete input: a fresh owner and the trace
"initial build, mount commit, one update evaluation, teardown". -/
theorem C8_initial_build_once_witness :
    fresh.isMounted = false ∧ fresh.initBuildCount = 0 ∧ fresh.updateEvalCount = 0 ∧
    ValidTrace [LifecycleEvent.getDerived false _buildState_default,
      LifecycleEvent.didMount,
      LifecycleEvent.getDerived true _buildState_default,
      LifecycleEvent.willUnmount] ∧
    ((runLifecycle fresh [LifecycleEvent.getDerived false _buildState_default,
        LifecycleEvent.didMount,
        LifecycleEvent.getDerived true _buildState_default,
        LifecycleEvent.willUnmount]).initBuildCount = 1 ∧
    ∀ p t, [LifecycleEvent.getDerived false _buildState_default,
        LifecycleEvent.didMount,
        LifecycleEvent.getDerived true _buildState_default,
        LifecycleEvent.willUnmount] = p ++ t →
      0 < (runLifecycle fresh p).updateEvalCount →
      (runLifecycle fresh p).initBuildCount = 1) :=
  ⟨rfl, rfl, rfl,
   ⟨false, _buildState_default, [LifecycleEvent.getDerived true _buildState_default],
    [LifecycleEvent.willUnmount], rfl, by simp [isUpdateEvent], Or.inr rfl⟩,
   C8_initial_build_once fresh _ rfl rfl rfl
     ⟨false, _buildState_default, [LifecycleEvent.getDerived true _buildState_default],
      [LifecycleEvent.willUnmount], rfl, by simp [isUpdateEvent], Or.inr rfl⟩⟩

theorem matchPred_shape_hyp (storeId : Nat) (key : Key) :
    ∀ a b : AutoSubscription, shape a = shape b →
      matchPred storeId key a = matchPred storeId key b :=
  fun _ _ hab => matchPred_congr hab

theorem runReads_SelShape_mono (rs : List (Nat × Key)) :
    ∀ (st : OwnerState) (p : AutoSubscription → Bool) (σ : Nat × Nat × Key),
      (∀ a b, shape a = shape b → p a = p b) →
      (st.handledAutoSubscriptions.find? p).map shape = some σ →
      ((runReads st rs).handledAutoSubscriptions.find? p).map shape = some σ := by
  induction rs with
  | nil => intro st p σ _ h; exact h
  | cons r rs ih =>
    intro st p σ hp h
    rw [runReads_cons]
    apply ih _ p σ hp
    cases hm : _findMatchingAutoSubscription st r.1 r.2 with
    | some y =>
      rw [handle_of_some hm]
      show (((markFirst (matchPred r.1 r.2) st.handledAutoSubscriptions).find? p).map shape)
        = some σ
      rw [find?_map_shape_congr hp (shapes_markFirst (matchPred r.1 r.2) _)]
      exact h
    | none =>
      rw [handle_of_none hm]
      obtain ⟨x, hx, hxs⟩ : ∃ x, st.handledAutoSubscriptions.find? p = some x ∧
          shape x = σ := by
        cases hf : st.handledAutoSubscriptions.find? p with
        | none => rw [hf] at h; simp at h
        | some x => rw [hf] at h; exact ⟨x, rfl, by simpa using h⟩
      show (((st.handledAutoSubscriptions ++ [newSub st r.1 r.2]).find? p).map shape) = some σ
      rw [find?_append_some hx]
      simp [hxs]

theorem runReads_selected (rs : List (Nat × Key)) :
    ∀ (st : OwnerState) (s : AutoSubscription),
      s ∈ (runReads st rs).handledAutoSubscriptions → s.used = true →
      (∃ x ∈ st.handledAutoSubscriptions, x.used = true ∧ shape x = shape s) ∨
      (∃ r ∈ rs, ((runReads st rs).handledAutoSubscriptions.find?
          (matchPred r.1 r.2)).map shape = some (shape s)) := by
  induction rs with
  | nil => intro st s hs hu; exact Or.inl ⟨s, hs, hu, rfl⟩
  | cons r rs ih =>
    intro st s hs hu
    rw [runReads_cons] at hs
    rcases ih _ s hs hu with ⟨x, hx, hxu, hsh⟩ | ⟨r', hr', hsel⟩
    · cases hm : _findMatchingAutoSubscription st r.1 r.2 with
      | some y =>
        have hfind : st.handledAutoSubscriptions.find? (matchPred r.1 r.2) = some y := by
          rw [← findMatching_eq]; exact hm
        obtain ⟨l₁, l₂, hdec, _, _, hmk⟩ := markFirst_decomp hfind
        rw [handle_of_some hm] at hx
        have hx' : x ∈ l₁ ++ { y with used := true } :: l₂ := by
          rw [← hmk]; exact hx
        rcases List.mem_append.mp hx' with hx1 | hx2
        · refine Or.inl ⟨x, ?_, hxu, hsh⟩
          rw [hdec]; exact List.mem_append.mpr (Or.inl hx1)
        · rcases List.mem_cons.mp hx2 with rfl | hx3
          · right
            refine ⟨r, by simp, ?_⟩
            have hsel1 : (((_handleAutoSubscribe st r.1 r.2).handledAutoSubscriptions
                ).find? (matchPred r.1 r.2)).map shape = some (shape y) := by
              rw [handle_of_some hm]
              show (((markFirst (matchPred r.1 r.2) st.handledAutoSubscriptions
                ).find? (matchPred r.1 r.2)).map shape) = _
              rw [find?_map_shape_congr (matchPred_shape_hyp r.1 r.2)
                (shapes_markFirst (matchPred r.1 r.2) _), hfind]
              rfl
            rw [runReads_cons]
            have hmono := runReads_SelShape_mono rs _ _ _
              (matchPred_shape_hyp r.1 r.2) hsel1
            have hsy : shape s = shape y := by
              rw [← hsh]; simp [shape]
            rw [hsy]
            exact hmono
          · refine Or.inl ⟨x, ?_, hxu, hsh⟩
            rw [hdec]
            exact List.mem_append.mpr (Or.inr (List.mem_cons.mpr (Or.inr hx3)))
      | none =>
        rw [handle_of_none hm] at hx
        rcases List.mem_append.mp hx with hx1 | hx2
        · exact Or.inl ⟨x, hx1, hxu, hsh⟩
        · have hxc : x = newSub st r.1 r.2 := by simpa using hx2
          right
          refine ⟨r, by simp, ?_⟩
          have hfind : st.handledAutoSubscriptions.find? (matchPred r.1 r.2) = none := by
            rw [← findMatching_eq]; exact hm
          have hsel1 : (((_handleAutoSubscribe st r.1 r.2).handledAutoSubscriptions
              ).find? (matchPred r.1 r.2)).map shape
                = some (shape (newSub st r.1 r.2)) := by
            rw [handle_of_none hm]
            show (((st.handledAutoSubscriptions ++ [newSub st r.1 r.2]
              ).find? (matchPred r.1 r.2)).map shape) = _
            rw [find?_append_none hfind,
              List.find?_cons_of_pos _ (by simp [newSub, matchPred])]
            rfl
          rw [runReads_cons]
          have hmono := runReads_SelShape_mono rs _ _ _
            (matchPred_shape_hyp r.1 r.2) hsel1
          have hsy : shape s = shape (newSub st r.1 r.2) := by
            rw [← hsh, hxc]
          rw [hsy]
          exact hmono
    · refine Or.inr ⟨r', List.mem_cons_of_mem _ hr', ?_⟩
      rw [runReads_cons]
      exact hsel

theorem postbuild_all_used {st : OwnerState} {reads : List (Nat × Key)}
    {draft : Option (List String)} :
    ∀ s ∈ ((_buildStateWithAutoSubscriptions st
        { reads := reads, outcome := BuildOutcome.ok draft }).1).handledAutoSubscriptions,
      s.used = true := by
  intro s hs
  rw [reconcile_ok] at hs
  exact (mem_sweep_used hs).2

theorem postbuild_covered {st : OwnerState} {reads : List (Nat × Key)}
    {draft : Option (List String)} :
    ∀ r ∈ reads, ∃ s ∈ ((_buildStateWithAutoSubscriptions st
        { reads := reads, outcome := BuildOutcome.ok draft }).1).handledAutoSubscriptions,
      matchPred r.1 r.2 s = true := by
  intro r hr
  rw [reconcile_ok]
  obtain ⟨s, hs, hm, hu⟩ := runReads_covered reads _ r hr
  exact ⟨s, mem_sweep_of_used hs hu, hm⟩

theorem postbuild_selected {st : OwnerState} (hwf : WellFormed st)
    (reads : List (Nat × Key)) (draft : Option (List String)) :
    ∀ s ∈ ((_buildStateWithAutoSubscriptions st
        { reads := reads, outcome := BuildOutcome.ok draft }).1).handledAutoSubscriptions,
      ∃ r ∈ reads,
        ((_buildStateWithAutoSubscriptions st
          { reads := reads, outcome := BuildOutcome.ok draft }).1
            ).handledAutoSubscriptions.find? (matchPred r.1 r.2) = some s := by
  intro s hs
  rw [reconcile_ok] at hs ⊢
  obtain ⟨hsmem, hsu⟩ := mem_sweep_used hs
  have hwf1 : WellFormed (runReads { st with
      handledAutoSubscriptions := resetUsed st.handledAutoSubscriptions,
      buildCount := st.buildCount + 1 } reads) := by
    apply runReads_wf
    obtain ⟨hnd, hlt⟩ := resetUsed_wf hwf
    exact ⟨hnd, hlt⟩
  rcases runReads_selected reads _ s hsmem hsu with ⟨x, hx, hxu, _⟩ | ⟨r, hr, hsel⟩
  · exact absurd hxu (by rw [used_false_of_mem_resetUsed hx]; simp)
  · refine ⟨r, hr, ?_⟩
    obtain ⟨y, hy, hysh⟩ : ∃ y, (runReads { st with
        handledAutoSubscriptions := resetUsed st.handledAutoSubscriptions,
        buildCount := st.buildCount + 1 } reads).handledAutoSubscriptions.find?
          (matchPred r.1 r.2) = some y ∧ shape y = shape s := by
      cases hca : (runReads { st with
          handledAutoSubscriptions := resetUsed st.handledAutoSubscriptions,
          buildCount := st.buildCount + 1 } reads).handledAutoSubscriptions.find?
            (matchPred r.1 r.2) with
      | none => rw [hca] at hsel; simp at hsel
      | some y => rw [hca] at hsel; exact ⟨y, rfl, by simpa using hsel⟩
    have hymem := List.mem_of_find?_eq_some hy
    have hid : y.id = s.id := (shape_eq_iff.mp hysh).1
    have hys : y = s := eq_of_id_eq hwf1.1 hymem hsmem hid
    rw [sweep_subs]
    rw [hys] at hy
    exact find?_filter hy (by simp [hsu])

theorem idsOf_eq_of_shapes {l₁ l₂ : List AutoSubscription}
    (h : l₁.map shape = l₂.map shape) :
    l₁.map AutoSubscription.id = l₂.map AutoSubscription.id := by
  have h' := congrArg (List.map Prod.fst) h
  rw [List.map_map, List.map_map] at h'
  simpa [shape, Function.comp] using h'

theorem sub_eq_of_shape_used {a b : AutoSubscription} (h : shape a = shape b)
    (hu : a.used = b.used) : a = b := by
  obtain ⟨h1, h2, h3⟩ := shape_eq_iff.mp h
  cases a
  cases b
  simp_all

theorem eq_of_shapes_used :
    ∀ {l₁ l₂ : List AutoSubscription}, l₁.map shape = l₂.map shape →
      (∀ x ∈ l₁, x.used = true) → (∀ x ∈ l₂, x.used = true) → l₁ = l₂ := by
  intro l₁
  induction l₁ with
  | nil =>
    intro l₂ h _ _
    cases l₂ with
    | nil => rfl
    | cons b t => simp at h
  | cons a t ih =>
    intro l₂ h h₁ h₂
    cases l₂ with
    | nil => simp at h
    | cons b t₂ =>
      simp only [List.map_cons, List.cons.injEq] at h
      have hab : a = b := sub_eq_of_shape_used h.1
        ((h₁ a (by simp)).trans (h₂ b (by simp)).symm)
      rw [hab, ih h.2 (fun x hx => h₁ x (List.mem_cons_of_mem _ hx))
        (fun x hx => h₂ x (List.mem_cons_of_mem _ hx))]

theorem run2_marks (L : List AutoSubscription) :
    ∀ (rs : List (Nat × Key)) (cur : OwnerState),
      cur.handledAutoSubscriptions.map shape = L.map shape →
      (∀ r ∈ rs, ∃ s ∈ L, matchPred r.1 r.2 s = true) →
      ((runReads cur rs).handledAutoSubscriptions.map shape = L.map shape ∧
       (runReads cur rs).storeIndex = cur.storeIndex ∧
       (runReads cur rs).trackLog = cur.trackLog ∧
       (runReads cur rs).nextId = cur.nextId) ∧
      (∀ s ∈ L, (∃ r ∈ rs, L.find? (matchPred r.1 r.2) = some s) →
        ∃ x ∈ (runReads cur rs).handledAutoSubscriptions,
          shape x = shape s ∧ x.used = true) := by
  intro rs
  induction rs with
  | nil =>
    intro cur hsh _
    refine ⟨⟨hsh, rfl, rfl, rfl⟩, ?_⟩
    intro s _ hr
    obtain ⟨r, hr', _⟩ := hr
    simp at hr'
  | cons r rs ih =>
    intro cur hsh hcov
    obtain ⟨s₀, hs₀, hm₀⟩ := hcov r (by simp)
    obtain ⟨y, hy⟩ : ∃ y, cur.handledAutoSubscriptions.find? (matchPred r.1 r.2)
        = some y := by
      cases hf : cur.handledAutoSubscriptions.find? (matchPred r.1 r.2) with
      | some y => exact ⟨y, rfl⟩
      | none =>
        exfalso
        rw [List.find?_eq_none] at hf
        have hmem : shape s₀ ∈ cur.handledAutoSubscriptions.map shape := by
          rw [hsh]; exact List.mem_map_of_mem _ hs₀
        obtain ⟨x, hx, hxsh⟩ := List.mem_map.mp hmem
        exact hf x hx (by rw [matchPred_congr hxsh]; exact hm₀)
    have hymatch : _findMatchingAutoSubscription cur r.1 r.2 = some y := by
      rw [findMatching_eq]; exact hy
    have hsh' : (_handleAutoSubscribe cur r.1 r.2).handledAutoSubscriptions.map shape
        = L.map shape := by
      rw [handle_of_some hymatch]
      show (markFirst (matchPred r.1 r.2) cur.handledAutoSubscriptions).map shape = _
      rw [shapes_markFirst]; exact hsh
    have hcov' : ∀ r' ∈ rs, ∃ s ∈ L, matchPred r'.1 r'.2 s = true :=
      fun r' hr' => hcov r' (List.mem_cons_of_mem _ hr')
    obtain ⟨⟨a1, a2, a3, a4⟩, a5⟩ := ih (_handleAutoSubscribe cur r.1 r.2) hsh' hcov'
    rw [runReads_cons]
    refine ⟨⟨a1, ?_, ?_, ?_⟩, ?_⟩
    · rw [a2, handle_of_some hymatch]
    · rw [a3, handle_of_some hymatch]
    · rw [a4, handle_of_some hymatch]
    · intro s hsL hselr
      obtain ⟨r', hr', hsel⟩ := hselr
      rcases List.mem_cons.mp hr' with rfl | hr''
      · have hshfind : (cur.handledAutoSubscriptions.find? (matchPred r'.1 r'.2)).map shape
            = (L.find? (matchPred r'.1 r'.2)).map shape :=
          find?_map_shape_congr (matchPred_shape_hyp r'.1 r'.2) hsh
        rw [hy, hsel] at hshfind
        have hys : shape y = shape s := by simpa using hshfind
        obtain ⟨l₁, l₂, _, _, _, hmk⟩ := markFirst_decomp hy
        have hmem : ({ y with used := true } : AutoSubscription)
            ∈ (_handleAutoSubscribe cur r'.1 r'.2).handledAutoSubscriptions := by
          rw [handle_of_some hymatch]
          show _ ∈ markFirst (matchPred r'.1 r'.2) cur.handledAutoSubscriptions
          rw [hmk]
          simp
        obtain ⟨x, hx, hxsh, hxu⟩ :=
          runReads_persist_used rs _ { y with used := true } hmem rfl
        refine ⟨x, hx, ?_, hxu⟩
        rw [hxsh]
        rw [← hys]
        simp [shape]
      · exact a5 s hsL ⟨r', hr'', hsel⟩

/-- C3: running `_buildStateWithAutoSubscriptions` a second time with the same
read sequence and no intervening store change reproduces exactly the
subscription set left by the first run, performs no `trackAutoSubscription`
registration and no `removeAutoSubscription` deregistration (the track and
removal logs and the store-side index are unchanged): no churn, no
duplicates. -/
theorem C3_reconcile_idempotent (st : OwnerState) (reads : List (Nat × Key))
    (d d' : Option (List String)) (hwf : WellFormed st) :
    ((_buildStateWithAutoSubscriptions
        ((_buildStateWithAutoSubscriptions st
          { reads := reads, outcome := BuildOutcome.ok d }).1)
        { reads := reads, outcome := BuildOutcome.ok d' }).1).handledAutoSubscriptions
      = ((_buildStateWithAutoSubscriptions st
          { reads := reads, outcome := BuildOutcome.ok d }).1).handledAutoSubscriptions ∧
    ((_buildStateWithAutoSubscriptions
        ((_buildStateWithAutoSubscriptions st
          { reads := reads, outcome := BuildOutcome.ok d }).1)
        { reads := reads, outcome := BuildOutcome.ok d' }).1).storeIndex
      = ((_buildStateWithAutoSubscriptions st
          { reads := reads, outcome := BuildOutcome.ok d }).1).storeIndex ∧
    ((_buildStateWithAutoSubscriptions
        ((_buildStateWithAutoSubscriptions st
          { reads := reads, outcome := BuildOutcome.ok d }).1)
        { reads := reads, outcome := BuildOutcome.ok d' }).1).trackLog
      = ((_buildStateWithAutoSubscriptions st
          { reads := reads, outcome := BuildOutcome.ok d }).1).trackLog ∧
    ((_buildStateWithAutoSubscriptions
        ((_buildStateWithAutoSubscriptions st
          { reads := reads, outcome := BuildOutcome.ok d }).1)
        { reads := reads, outcome := BuildOutcome.ok d' }).1).removedLog
      = ((_buildStateWithAutoSubscriptions st
          { reads := reads, outcome := BuildOutcome.ok d }).1).removedLog := by
  set st1 : OwnerState := (_buildStateWithAutoSubscriptions st
    { reads := reads, outcome := BuildOutcome.ok d }).1 with hst1
  have hUsedL : ∀ s ∈ st1.handledAutoSubscriptions, s.used = true := by
    rw [hst1]; exact postbuild_all_used
  have hWf1 : WellFormed st1 := by rw [hst1]; exact reconcile_wf hwf _
  have hBall : ∀ s ∈ st1.handledAutoSubscriptions, ∃ r ∈ reads,
      st1.handledAutoSubscriptions.find? (matchPred r.1 r.2) = some s := by
    rw [hst1]; exact postbuild_selected hwf reads d
  have hCov : ∀ r ∈ reads, ∃ s ∈ st1.handledAutoSubscriptions,
      matchPred r.1 r.2 s = true := by
    rw [hst1]; exact fun r hr => postbuild_covered r hr
  rw [reconcile_ok st1 reads d']
  set st1' : OwnerState := { st1 with
    handledAutoSubscriptions := resetUsed st1.handledAutoSubscriptions,
    buildCount := st1.buildCount + 1 } with hst1'
  have hsh0 : st1'.handledAutoSubscriptions.map shape
      = st1.handledAutoSubscriptions.map shape := shapes_resetUsed _
  obtain ⟨⟨m1, m2, m3, _⟩, m5⟩ :=
    run2_marks st1.handledAutoSubscriptions reads st1' hsh0 hCov
  set M : OwnerState := runReads st1' reads with hM
  have hMr : M.removedLog = st1.removedLog := (runReads_preserves reads st1').2.2.2.2
  have hMnodup : (M.handledAutoSubscriptions.map AutoSubscription.id).Nodup := by
    rw [idsOf_eq_of_shapes m1]
    exact hWf1.1
  have hMused : ∀ x ∈ M.handledAutoSubscriptions, x.used = true := by
    intro x hx
    have hmem : shape x ∈ st1.handledAutoSubscriptions.map shape := by
      rw [← m1]; exact List.mem_map_of_mem _ hx
    obtain ⟨s, hsL, hssh⟩ := List.mem_map.mp hmem
    obtain ⟨x', hx', hxsh', hxu'⟩ := m5 s hsL (hBall s hsL)
    have : x' = x := eq_of_id_eq hMnodup hx' hx
      (by
        have h1 : (shape x').1 = (shape s).1 := by rw [hxsh']
        have h2 : (shape x).1 = (shape s).1 := by rw [← hssh]
        show x'.id = x.id
        calc x'.id = (shape s).1 := h1
          _ = x.id := h2.symm)
    rw [← this]
    exact hxu'
  have hMsubs : M.handledAutoSubscriptions = st1.handledAutoSubscriptions :=
    eq_of_shapes_used m1 hMused hUsedL
  have hremoved : M.handledAutoSubscriptions.filter
      _shouldRemoveAndCleanupAutoSubscription = [] := by
    rw [List.filter_eq_nil_iff]
    intro a ha
    simp [_shouldRemoveAndCleanupAutoSubscription, hMused a ha]
  refine ⟨?_, ?_, ?_, ?_⟩
  · rw [sweep_subs]
    rw [hMsubs]
    apply List.filter_eq_self.mpr
    intro a ha
    simp [hUsedL a ha]
  · show (List.foldl removeAutoSubscription M
      (M.handledAutoSubscriptions.filter _shouldRemoveAndCleanupAutoSubscription)
        ).storeIndex = st1.storeIndex
    rw [hremoved]
    show M.storeIndex = st1.storeIndex
    rw [m2]
  · show (List.foldl removeAutoSubscription M
      (M.handledAutoSubscriptions.filter _shouldRemoveAndCleanupAutoSubscription)
        ).trackLog = st1.trackLog
    rw [hremoved]
    show M.trackLog = st1.trackLog
    rw [m3]
  · show (List.foldl removeAutoSubscription M
      (M.handledAutoSubscriptions.filter _shouldRemoveAndCleanupAutoSubscription)
        ).removedLog = st1.removedLog
    rw [hremoved]
    exact hMr

/-- Witness for C3 at a concrete input: a fresh owner and a build reading
(store 0, key "x") and (store 1, `Key_All`), run twice. -/
theorem C3_reconcile_idempotent_witness :
    WellFormed fresh ∧
    (((_buildStateWithAutoSubscriptions
        ((_buildStateWithAutoSubscriptions fresh
          { reads := [(0, Key.specific "x"), (1, Key.all)],
            outcome := BuildOutcome.ok none }).1)
        { reads := [(0, Key.specific "x"), (1, Key.all)],
          outcome := BuildOutcome.ok none }).1).handledAutoSubscriptions
      = ((_buildStateWithAutoSubscriptions fresh
          { reads := [(0, Key.specific "x"), (1, Key.all)],
            outcome := BuildOutcome.ok none }).1).handledAutoSubscriptions ∧
    ((_buildStateWithAutoSubscriptions
        ((_buildStateWithAutoSubscriptions fresh
          { reads := [(0, Key.specific "x"), (1, Key.all)],
            outcome := BuildOutcome.ok none }).1)
        { reads := [(0, Key.specific "x"), (1, Key.all)],
          outcome := BuildOutcome.ok none }).1).storeIndex
      = ((_buildStateWithAutoSubscriptions fresh
          { reads := [(0, Key.specific "x"), (1, Key.all)],
            outcome := BuildOutcome.ok none }).1).storeIndex ∧
    ((_buildStateWithAutoSubscriptions
        ((_buildStateWithAutoSubscriptions fresh
          { reads := [(0, Key.specific "x"), (1, Key.all)],
            outcome := BuildOutcome.ok none }).1)
        { reads := [(0, Key.specific "x"), (1, Key.all)],
          outcome := BuildOutcome.ok none }).1).trackLog
      = ((_buildStateWithAutoSubscriptions fresh
          { reads := [(0, Key.specific "x"), (1, Key.all)],
            outcome := BuildOutcome.ok none }).1).trackLog ∧
    ((_buildStateWithAutoSubscriptions
        ((_buildStateWithAutoSubscriptions fresh
          { reads := [(0, Key.specific "x"), (1, Key.all)],
            outcome := BuildOutcome.ok none }).1)
        { reads := [(0, Key.specific "x"), (1, Key.all)],
          outcome := BuildOutcome.ok none }).1).removedLog
      = ((_buildStateWithAutoSubscriptions fresh
          { reads := [(0, Key.specific "x"), (1, Key.all)],
            outcome := BuildOutcome.ok none }).1).removedLog) :=
  ⟨by decide,
   C3_reconcile_idempotent fresh [(0, Key.specific "x"), (1, Key.all)] none none
     (by decide)⟩

end ReSub
